import Mathlib

/-!
# cloudflare-error-page: the parameter normaliser and the status presenter

A shallow embedding of `errorpage.go`.

Go maps are reference values: a `map[string]interface{}` stored inside another
map is shared, not copied.  The embedding therefore keeps every map object in a
heap and lets a dynamic value point at a heap cell.  A step that Go would abort
with a run-time panic (an assignment into a nil map) yields `none`.
-/

namespace ErrorPage

/-! ## Data model -/

/-- A dynamically typed Go value (`interface{}`) as far as `errorpage.go`
distinguishes them: the nil interface, a string, an integer, a boolean, a
`map[string]interface{}` (`none` is the nil map, `some a` the map object stored
at heap address `a`), and any value of another dynamic type. -/
inductive Value where
  | nil : Value
  | str (s : String) : Value
  | int (n : Int) : Value
  | bool (b : Bool) : Value
  | map (ref : Option Nat) : Value
  | other (tag : Nat) : Value
  deriving DecidableEq

/-- The contents of one map object: an association list, first binding wins. -/
abbrev GoMap := List (String × Value)

/-- The heap of map objects; the address of an object is its position. -/
abbrev Heap := List GoMap

/-- Lookup `m[key]` in the contents of a map object. -/
def GoMap.get (m : GoMap) (key : String) : Option Value :=
  match m with
  | [] => none
  | (k, v) :: rest => if key = k then some v else GoMap.get rest key

/-- The contents after `m[key] = v`: the binding of `key` is replaced when there is
one and added otherwise. -/
def GoMap.set (m : GoMap) (key : String) (v : Value) : GoMap :=
  match m with
  | [] => [(key, v)]
  | (k, w) :: rest => if key = k then (k, v) :: rest else (k, w) :: GoMap.set rest key v

/-- The contents of the object at address `a` (no object: no binding). -/
def Heap.read (h : Heap) (a : Nat) : GoMap := h.getD a []

/-- The heap after `m[key] = v` for the object `m` at address `a`. -/
def Heap.write (h : Heap) (a : Nat) (key : String) (v : Value) : Heap :=
  h.set a ((h.read a).set key v)

/-- Allocation of a new map object with the given contents (`make`, or a map
literal): the heap grows by one object, whose address is the old `h.length`. -/
def Heap.alloc (h : Heap) (m : GoMap) : Heap := h ++ [m]

/-- The two-valued index expression `v, ok := m[key]` on a map reference; a nil
map has no binding. -/
def index (h : Heap) (m : Option Nat) (key : String) : Option Value :=
  match m with
  | none => none
  | some a => (h.read a).get key

/-- The assignment `m[key] = v` on a map reference.  Go panics when `m` is the
nil map. -/
def assign (h : Heap) (m : Option Nat) (key : String) (v : Value) : Option Heap :=
  match m with
  | none => none
  | some a => some (h.write a key v)

/-- The statement `if _, ok := m[key]; !ok { m[key] = v }`. -/
def setIfAbsent (h : Heap) (m : Option Nat) (key : String) (v : Value) : Option Heap :=
  if (index h m key).isSome then some h else assign h m key v

/-- The type assertion `m, ok := val.(map[string]interface{})`. -/
def Value.asMap : Value → Option (Option Nat)
  | .map r => some r
  | _ => none

/-- What the program reads from its surroundings: the formatted UTC clock, the
random source (`none` when `rand.Read` fails, otherwise byte `i` of the buffer is
`rand i % 256`), the text `fmt` produces for an operand that does not fit the
verb, and the execution of the compiled template. -/
structure Env (Data : Type) where
  now : String
  rand : Option (Nat → Nat)
  badVerb : Char → Heap → Value → String
  execute : Heap → Data → Except String String

/-- The record `statusInfo`. -/
structure statusInfo where
  Icon : String
  DefaultLocation : String
  DefaultName : String
  Location : String
  Name : String
  Status : String
  StatusText : String
  StatusTextColor : String
  ErrorClass : String
  deriving DecidableEq

/-- The record `RenderOptions`. -/
structure RenderOptions where
  AllowHTML : Bool
  UseCDN : Bool
  deriving DecidableEq

/-- The map literal `data` that `Render` hands to the template; `params` is the
address of `paramsCopy`. -/
structure TemplateData where
  params : Nat
  resources_use_cdn : Bool
  resources_cdn : String
  browser_status : statusInfo
  cloudflare_status : statusInfo
  host_status : statusInfo
  allow_html : Bool
  deriving DecidableEq

/-- A Go error value: its message and the error it wraps, if any. -/
inductive GoError where
  | mk (msg : String) (wrapped : Option GoError) : GoError

/-! ## Operations -/

/-- One lowercase hexadecimal digit. -/
def hexDigit (n : Nat) : Char := "0123456789abcdef".toList.getD n '0'

/-- The function `hex.EncodeToString` on a byte slice. -/
def EncodeToString (b : List Nat) : String :=
  String.mk (b.flatMap fun x => [hexDigit ((x % 256) / 16), hexDigit ((x % 256) % 16)])

/-- The function `generateRayID`: eight random bytes in hexadecimal, or the
placeholder when the random source fails. -/
def generateRayID (rand : Option (Nat → Nat)) : String :=
  match rand with
  | none => "0000000000000000"
  | some r => EncodeToString ((List.range 8).map fun i => r i % 256)

/-- The function `fillParams`. -/
def fillParams {D : Type} (env : Env D) (h : Heap) (params : Option Nat) : Option Heap := do
  let h ← setIfAbsent h params "time" (.str env.now)
  let h ← setIfAbsent h params "ray_id" (.str (generateRayID env.rand))
  pure h

/-- The function `getMapValue`, on the contents of the map it reads. -/
def getMapValue (m : GoMap) (key : String) (defaultVal : String) : String :=
  match m.get key with
  | some (.str s) => s
  | _ => defaultVal

/-- The function `getBoolValue`, on the contents of the map it reads. -/
def getBoolValue (m : GoMap) (key : String) (defaultVal : Bool) : Bool :=
  match m.get key with
  | some (.bool b) => b
  | _ => defaultVal

/-- Lines 113-123 of `prepareStatusInfo`: the contents of the map `item`.  The
group `<itemID>_status` is taken when it is a non-nil map; otherwise `item` is a
new empty map. -/
def statusItem (h : Heap) (params : Option Nat) (itemID : String) : GoMap :=
  let itemKey := itemID ++ "_status"
  let item : Option Nat :=
    match index h params itemKey with
    | some val =>
      match val.asMap with
      | some m => m
      | none => none
    | none => none
  match item with
  | none => []
  | some a => h.read a

/-- The function `prepareStatusInfo`. -/
def prepareStatusInfo (h : Heap) (params : Option Nat) (itemID : String)
    (errorSource : String) : statusInfo :=
  let icon : String × String × String :=
    if itemID = "browser" then ("browser", "You", "Browser")
    else if itemID = "cloudflare" then ("cloud", "San Francisco", "Cloudflare")
    else if itemID = "host" then ("server", "Website", "Host")
    else ("", "", "")
  let item := statusItem h params itemID
  let status := getMapValue item "status" "ok"
  let location := getMapValue item "location" icon.2.1
  let name := getMapValue item "name" icon.2.2
  let statusText :=
    let val := getMapValue item "status_text" ""
    if val ≠ "" then val
    else if status = "ok" then "Working"
    else "Error"
  let statusTextColor :=
    let val := getMapValue item "status_text_color" ""
    if val ≠ "" then val
    else if status = "ok" then "#9bca3e"
    else if status = "error" then "#bd2426"
    else ""
  let errorClass := if errorSource = itemID then "cf-error-source" else ""
  { Icon := icon.1, DefaultLocation := icon.2.1, DefaultName := icon.2.2,
    Location := location, Name := name, Status := status,
    StatusText := statusText, StatusTextColor := statusTextColor,
    ErrorClass := errorClass }

/-- The operand of `%d` as `fmt.Sprintf` prints it. -/
def fmtD {D : Type} (env : Env D) (h : Heap) : Value → String
  | .int n => toString n
  | v => env.badVerb 'd' h v

/-- The operand of `%s` as `fmt.Sprintf` prints it. -/
def fmtS {D : Type} (env : Env D) (h : Heap) : Value → String
  | .str s => s
  | v => env.badVerb 's' h v

/-- The single-valued index expression `m[key]`: the nil interface when absent. -/
def indexD (h : Heap) (m : Option Nat) (key : String) : Value :=
  (index h m key).getD .nil

/-- Lines 214-219 (and 235-240, 250-255): the map a group block works on.  It is
the new map `fresh` unless the bag binds `key` to a `map[string]interface{}`, in
which case it is that very map object (nil included). -/
def groupMap (h : Heap) (paramsCopy : Option Nat) (key : String) (fresh : Nat) : Option Nat :=
  match index h paramsCopy key with
  | some val =>
    match val.asMap with
    | some m => m
    | none => some fresh
  | none => some fresh

/-- Lines 180-211 of `Render`: the copy of the bag, `fillParams` and the defaults
of the top-level entries.  The copy `paramsCopy` is the new object at address
`h.length`. -/
def Render.scalars {D : Type} (env : Env D) (h : Heap) (params : Option Nat) :
    Option Heap := do
  -- paramsCopy := make(Params); for k, v := range params { paramsCopy[k] = v }
  let paramsCopy : Option Nat := some h.length
  let h := h.alloc (match params with | none => [] | some p => h.read p)
  let h ← fillParams env h paramsCopy
  let h ← setIfAbsent h paramsCopy "error_code" (.int 500)
  let h ← setIfAbsent h paramsCopy "title" (.str "Internal server error")
  let h ← setIfAbsent h paramsCopy "html_title"
    (.str (fmtD env h (indexD h paramsCopy "error_code") ++ ": "
      ++ fmtS env h (indexD h paramsCopy "title")))
  let h ← setIfAbsent h paramsCopy "what_happened"
    (.str "<p>There is an internal server error on Cloudflare's network.</p>")
  let h ← setIfAbsent h paramsCopy "what_can_i_do"
    (.str "<p>Please try again in a few minutes.</p>")
  setIfAbsent h paramsCopy "client_ip" (.str "1.1.1.1")

/-- Lines 213-232 of `Render`: the block "Prepare more_information". -/
def Render.moreInformation (h : Heap) (paramsCopy : Option Nat) : Option Heap := do
  let fresh := h.length
  let h := h.alloc []
  let moreInfo := groupMap h paramsCopy "more_information" fresh
  let h ← setIfAbsent h moreInfo "hidden" (.bool false)
  let h ← setIfAbsent h moreInfo "link" (.str "https://www.cloudflare.com/")
  let h ← setIfAbsent h moreInfo "text" (.str "cloudflare.com")
  let h ← setIfAbsent h moreInfo "for" (.str "more information")
  assign h paramsCopy "more_information" (.map moreInfo)

/-- Lines 234-247 of `Render`: the block "Prepare perf_sec_by". -/
def Render.perfSecBy (h : Heap) (paramsCopy : Option Nat) : Option Heap := do
  let fresh := h.length
  let h := h.alloc []
  let perfSecBy := groupMap h paramsCopy "perf_sec_by" fresh
  let h ← setIfAbsent h perfSecBy "link" (.str "https://www.cloudflare.com/")
  let h ← setIfAbsent h perfSecBy "text" (.str "Cloudflare")
  assign h paramsCopy "perf_sec_by" (.map perfSecBy)

/-- Lines 249-259 of `Render`: the block "Prepare creator_info". -/
def Render.creatorInfo (h : Heap) (paramsCopy : Option Nat) : Option Heap := do
  let fresh := h.length
  let h := h.alloc []
  let creatorInfo := groupMap h paramsCopy "creator_info" fresh
  let h ← setIfAbsent h creatorInfo "hidden" (.bool true)
  assign h paramsCopy "creator_info" (.map creatorInfo)

/-- Lines 180-259 of `Render`: the normalisation of the bag.  The result is the
final heap and the address of `paramsCopy`. -/
def Render.normalize {D : Type} (env : Env D) (h : Heap) (params : Option Nat) :
    Option (Heap × Nat) := do
  let c := h.length
  let h ← Render.scalars env h params
  let h ← Render.moreInformation h (some c)
  let h ← Render.perfSecBy h (some c)
  let h ← Render.creatorInfo h (some c)
  pure (h, c)

/-- Lines 261-267 of `Render`: the error source read from the bag. -/
def Render.errorSource (h : Heap) (paramsCopy : Option Nat) : String :=
  match index h paramsCopy "error_source" with
  | some (.str s) => s
  | _ => ""

/-- Lines 172-287 of `Render`: everything up to the template data. -/
def Render.data {D : Type} (env : Env D) (h : Heap) (params : Option Nat)
    (opts : Option RenderOptions) : Option (Heap × TemplateData) := do
  let opts : RenderOptions :=
    match opts with
    | none => { AllowHTML := true, UseCDN := true }
    | some o => o
  let r ← Render.normalize env h params
  let h := r.1
  let c := r.2
  let allowHTMLContent := opts.AllowHTML
  let errorSource := Render.errorSource h (some c)
  let browserStatus := prepareStatusInfo h (some c) "browser" errorSource
  let cloudflareStatus := prepareStatusInfo h (some c) "cloudflare" errorSource
  let hostStatus := prepareStatusInfo h (some c) "host" errorSource
  let data : TemplateData :=
    { params := c, resources_use_cdn := opts.UseCDN, resources_cdn := "",
      browser_status := browserStatus, cloudflare_status := cloudflareStatus,
      host_status := hostStatus, allow_html := allowHTMLContent }
  let data := if opts.UseCDN then { data with resources_cdn := "https://cloudflare.com" } else data
  pure (h, data)

/-- The function `Render`: the final heap with the returned string and error, or
`none` when the call panics. -/
def Render (env : Env TemplateData) (h : Heap) (params : Option Nat)
    (opts : Option RenderOptions) : Option (Heap × String × Option GoError) := do
  let r ← Render.data env h params opts
  let h := r.1
  let data := r.2
  match env.execute h data with
  | .error err =>
    pure (h, "", some (.mk ("template execution failed: " ++ err) (some (.mk err none))))
  | .ok out => pure (h, out, none)

/-! ## Auxiliary definitions used in the proofs -/

/-- The heap after `if _, ok := m[key]; !ok { m[key] = v }` on the non-nil map at
address `a`. -/
def Heap.ensure (h : Heap) (a : Nat) (key : String) (v : Value) : Heap :=
  if (index h (some a) key).isSome then h else h.write a key v

/-- A run of such statements on one map, in the order of the list. -/
def Heap.ensureAll (h : Heap) (a : Nat) : GoMap → Heap
  | [] => h
  | (k, v) :: ds => (h.ensure a k v).ensureAll a ds

/-- The common shape of the three group blocks of `Render`: a new empty map, the
choice of the map to work on, the defaults `ds` and the store into the copy. -/
def groupStage (h : Heap) (c : Nat) (gk : String) (ds : GoMap) : Option Heap :=
  match groupMap (h.alloc []) (some c) gk h.length with
  | none => none
  | some a => some (((h.alloc []).ensureAll a ds).write c gk (.map (some a)))

/-- The defaults of `more_information`. -/
def moreInformationDefaults : GoMap :=
  [("hidden", .bool false), ("link", .str "https://www.cloudflare.com/"),
   ("text", .str "cloudflare.com"), ("for", .str "more information")]

/-- The defaults of `perf_sec_by`. -/
def perfSecByDefaults : GoMap :=
  [("link", .str "https://www.cloudflare.com/"), ("text", .str "Cloudflare")]

/-- The defaults of `creator_info`. -/
def creatorInfoDefaults : GoMap := [("hidden", .bool true)]

/-- The contents of the caller's bag as the copy loop of `Render` reads them. -/
def bagContents (h : Heap) (params : Option Nat) : GoMap :=
  match params with
  | none => []
  | some p => h.read p

/-- The heap of `Render` just before line 200: the copy with `time`, `ray_id`,
`error_code` and `title` in place. -/
def scalarsPre {D : Type} (env : Env D) (h : Heap) (params : Option Nat) : Heap :=
  (h.alloc (bagContents h params)).ensureAll h.length
    [("time", .str env.now), ("ray_id", .str (generateRayID env.rand)),
     ("error_code", .int 500), ("title", .str "Internal server error")]

/-- The composed title of line 201. -/
def composedTitle {D : Type} (env : Env D) (h : Heap) (params : Option Nat) : String :=
  fmtD env (scalarsPre env h params) (indexD (scalarsPre env h params) (some h.length) "error_code")
    ++ ": "
    ++ fmtS env (scalarsPre env h params) (indexD (scalarsPre env h params) (some h.length) "title")

/-- The defaults of the top-level entries, in the order of lines 67-211. -/
def scalarDefaults {D : Type} (env : Env D) (h : Heap) (params : Option Nat) : GoMap :=
  [("time", .str env.now), ("ray_id", .str (generateRayID env.rand)),
   ("error_code", .int 500), ("title", .str "Internal server error"),
   ("html_title", .str (composedTitle env h params)),
   ("what_happened", .str "<p>There is an internal server error on Cloudflare's network.</p>"),
   ("what_can_i_do", .str "<p>Please try again in a few minutes.</p>"),
   ("client_ip", .str "1.1.1.1")]

/-- The heap of `Render` after line 211. -/
def scalarsHeap {D : Type} (env : Env D) (h : Heap) (params : Option Nat) : Heap :=
  (h.alloc (bagContents h params)).ensureAll h.length (scalarDefaults env h params)

/-- The keys of the three option groups. -/
def groupKeys : List String := ["more_information", "perf_sec_by", "creator_info"]

/-- A value is live in a heap of `n` objects when it is not a reference to a map
object outside the heap. -/
def Value.live (n : Nat) : Value → Bool
  | .map (some a) => decide (a < n)
  | _ => true

/-- Well-formedness of the caller's bag: a map stored under a group key is an
allocated object. -/
def groupsLive (h : Heap) (params : Option Nat) : Prop :=
  ∀ gk ∈ groupKeys, (indexD h params gk).live h.length = true

/-- No group key of the bag is bound to the nil map. -/
def groupsNonNil (h : Heap) (params : Option Nat) : Prop :=
  ∀ gk ∈ groupKeys, index h params gk ≠ some (.map none)

instance (h : Heap) (params : Option Nat) : Decidable (groupsLive h params) := by
  unfold groupsLive; infer_instance

instance (h : Heap) (params : Option Nat) : Decidable (groupsNonNil h params) := by
  unfold groupsNonNil; infer_instance

/-- The view of a heap after one group block: `f` is the view before, `c` the
copy, `a` the map of the group, `gk` its key and `ds` its defaults. -/
def layer (f : Nat → String → Option Value) (c a : Nat) (gk : String) (ds : GoMap) :
    Nat → String → Option Value :=
  fun b k =>
    if b = c ∧ k = gk then some (.map (some a))
    else if b = a then
      (match f a k with
       | some v => some v
       | none => ds.get k)
    else f b k

/-- The view of the heap after lines 180-211. -/
def scalarsView {D : Type} (env : Env D) (h : Heap) (params : Option Nat) :
    Nat → String → Option Value :=
  fun b k =>
    if b = h.length then
      (match index h params k with
       | some v => some v
       | none => (scalarDefaults env h params).get k)
    else index h (some b) k

/-- The map the block of group `gk` works on, read off the caller's bag: the map
the bag binds to `gk`, or the new map `fresh`. -/
def groupAddr (h : Heap) (params : Option Nat) (gk : String) (fresh : Nat) : Nat :=
  match index h params gk with
  | some (.map (some a)) => a
  | _ => fresh

/-- The three group blocks work on three different map objects: the caller did
not store one map under two group keys. -/
def groupsDistinct (h : Heap) (params : Option Nat) : Prop :=
  groupAddr h params "more_information" (h.length + 1)
      ≠ groupAddr h params "perf_sec_by" (h.length + 2) ∧
  groupAddr h params "more_information" (h.length + 1)
      ≠ groupAddr h params "creator_info" (h.length + 3) ∧
  groupAddr h params "perf_sec_by" (h.length + 2)
      ≠ groupAddr h params "creator_info" (h.length + 3)

instance (h : Heap) (params : Option Nat) : Decidable (groupsDistinct h params) := by
  unfold groupsDistinct; infer_instance

/-- The view of the heap after the normalisation, as a function of the input. -/
def normalView {D : Type} (env : Env D) (h : Heap) (params : Option Nat) :
    Nat → String → Option Value :=
  layer
    (layer
      (layer (scalarsView env h params) h.length
        (groupAddr h params "more_information" (h.length + 1)) "more_information"
        moreInformationDefaults)
      h.length (groupAddr h params "perf_sec_by" (h.length + 2)) "perf_sec_by"
      perfSecByDefaults)
    h.length (groupAddr h params "creator_info" (h.length + 3)) "creator_info"
    creatorInfoDefaults

/-- The keys of the top-level defaults. -/
def scalarKeys : List String :=
  ["time", "ray_id", "error_code", "title", "html_title", "what_happened", "what_can_i_do",
   "client_ip"]

/-- A bag as the normalisation leaves it: every top-level default key is bound,
and each group key is bound to a live map that binds every key of the group's
defaults. -/
def Normalized (h : Heap) (c : Nat) : Prop :=
  c < h.length ∧
  (∀ k, index h (some c) k = none → k ∉ scalarKeys) ∧
  ∃ a1 a2 a3,
    index h (some c) "more_information" = some (.map (some a1)) ∧
    index h (some c) "perf_sec_by" = some (.map (some a2)) ∧
    index h (some c) "creator_info" = some (.map (some a3)) ∧
    a1 < h.length ∧ a2 < h.length ∧ a3 < h.length ∧
    (∀ k, index h (some a1) k = none → moreInformationDefaults.get k = none) ∧
    (∀ k, index h (some a2) k = none → perfSecByDefaults.get k = none) ∧
    (∀ k, index h (some a3) k = none → creatorInfoDefaults.get k = none)

/-- A concrete environment for the worked examples: a fixed clock, a failing
random source, a fixed text for an operand that does not fit its verb and a
template that prints nothing. -/
def sampleEnv : Env TemplateData :=
  { now := "2025-01-01 00:00:00 UTC", rand := none,
    badVerb := fun _ _ _ => "%!v", execute := fun _ _ => .ok "" }

/-- The heap after the normalisation of the bag `{title: "Custom Error"}` under
`sampleEnv`: the caller's bag, the copy and the three new group maps. -/
def sampleNormalized : Heap :=
  [[("title", .str "Custom Error")],
   [("title", .str "Custom Error"),
    ("time", .str "2025-01-01 00:00:00 UTC"),
    ("ray_id", .str "0000000000000000"),
    ("error_code", .int 500),
    ("html_title", .str "500: Custom Error"),
    ("what_happened", .str "<p>There is an internal server error on Cloudflare's network.</p>"),
    ("what_can_i_do", .str "<p>Please try again in a few minutes.</p>"),
    ("client_ip", .str "1.1.1.1"),
    ("more_information", .map (some 2)),
    ("perf_sec_by", .map (some 3)),
    ("creator_info", .map (some 4))],
   [("hidden", .bool false),
    ("link", .str "https://www.cloudflare.com/"),
    ("text", .str "cloudflare.com"),
    ("for", .str "more information")],
   [("link", .str "https://www.cloudflare.com/"), ("text", .str "Cloudflare")],
   [("hidden", .bool true)]]

/-- Modelled from the spec: the template `templates/error.html` is not among the
sources; by the spec and `TestRenderWithCDNDisabled` the stylesheet link is the
asset base followed by the fixed path `/cdn-cgi/styles/main.css`. -/
def stylesheetHref (d : TemplateData) : String :=
  d.resources_cdn ++ "/cdn-cgi/styles/main.css"

/-- Modelled from the spec: the automatic escaping of the template engine for a
character of element text.  The engine and the template are not among the
sources; the spec says that a value with `<script>` is shown as
`&lt;script&gt;`.  The table is the one of `html/template`: NUL, the double
quote (34), `&`, the apostrophe (39), `+`, `<` and `>` are replaced. -/
def escapeChar (c : Char) : List Char :=
  if c = Char.ofNat 0 then [Char.ofNat 65533]
  else if c = Char.ofNat 34 then "&#34;".toList
  else if c = '&' then "&amp;".toList
  else if c = Char.ofNat 39 then "&#39;".toList
  else if c = '+' then "&#43;".toList
  else if c = '<' then "&lt;".toList
  else if c = '>' then "&gt;".toList
  else [c]

/-- Modelled from the spec: the escaped form of a text. -/
def htmlEscape (s : String) : String := String.mk (s.toList.flatMap escapeChar)

/-- Modelled from the spec: the text the template puts in the "What happened?"
section for the string `value` of `what_happened`: verbatim when `allow_html`
is set (the value is marked safe), escaped by the engine otherwise. -/
def whatHappenedSection (d : TemplateData) (value : String) : String :=
  if d.allow_html then value else htmlEscape value

/-! ## Maps and the heap -/

theorem GoMap.get_set (m : GoMap) (k k' : String) (v : Value) :
    (m.set k v).get k' = if k' = k then some v else m.get k' := by
  induction m with
  | nil => simp [GoMap.set, GoMap.get]
  | cons e rest ih =>
    obtain ⟨k0, w⟩ := e
    by_cases h1 : k = k0
    · subst h1
      by_cases h2 : k' = k <;> simp [GoMap.set, GoMap.get, h2]
    · by_cases h2 : k' = k0
      · subst h2
        have : ¬ k' = k := fun e => h1 e.symm
        simp [GoMap.set, GoMap.get, h1, this]
      · simp [GoMap.set, GoMap.get, h1, h2, ih]

theorem Heap.length_write (h : Heap) (a : Nat) (k : String) (v : Value) :
    (h.write a k v).length = h.length := by
  simp [Heap.write]

theorem Heap.length_alloc (h : Heap) (m : GoMap) : (h.alloc m).length = h.length + 1 := by
  simp [Heap.alloc]

theorem Heap.read_of_le (h : Heap) (b : Nat) (hb : h.length ≤ b) : h.read b = [] := by
  simp [Heap.read, List.getD, List.getElem?_eq_none hb]

theorem Heap.read_write (h : Heap) (a b : Nat) (k : String) (v : Value) :
    (h.write a k v).read b =
      if b = a ∧ a < h.length then (h.read a).set k v else h.read b := by
  unfold Heap.write Heap.read
  by_cases hba : b = a
  · subst hba
    by_cases hlt : b < h.length
    · simp [List.getD, hlt, List.getElem?_set_self]
    · have hle : ∀ x : GoMap, (h.set b x)[b]? = none := by
        intro x; apply List.getElem?_eq_none; simp; omega
      simp [List.getD, hlt, List.getElem?_eq_none (Nat.le_of_not_lt hlt), hle]
  · have : a ≠ b := fun e => hba e.symm
    simp [List.getD, hba, List.getElem?_set_ne this]

theorem Heap.read_alloc (h : Heap) (m : GoMap) (b : Nat) :
    (h.alloc m).read b = if b = h.length then m else h.read b := by
  unfold Heap.alloc Heap.read
  by_cases hb : b = h.length
  · subst hb; simp [List.getD]
  · rcases Nat.lt_or_gt_of_ne hb with hlt | hgt
    · simp [List.getD, hb, List.getElem?_append_left hlt]
    · have h1 : (h ++ [m]).length ≤ b := by simp; omega
      have h2 : h.length ≤ b := by omega
      simp [List.getD, hb, List.getElem?_eq_none h1, List.getElem?_eq_none h2]

theorem index_write (h : Heap) (a b : Nat) (k k' : String) (v : Value) :
    index (h.write a k v) (some b) k' =
      if b = a ∧ a < h.length ∧ k' = k then some v else index h (some b) k' := by
  simp only [index, Heap.read_write]
  by_cases h1 : b = a ∧ a < h.length
  · obtain ⟨rfl, h2⟩ := h1
    by_cases h3 : k' = k <;> simp [h2, h3, GoMap.get_set]
  · have : ¬ (b = a ∧ a < h.length ∧ k' = k) := fun ⟨x, y, _⟩ => h1 ⟨x, y⟩
    simp [h1, this]

theorem index_alloc (h : Heap) (m : GoMap) (b : Nat) (k : String) :
    index (h.alloc m) (some b) k = if b = h.length then m.get k else index h (some b) k := by
  simp only [index, Heap.read_alloc]
  split <;> rfl

theorem index_of_le (h : Heap) (b : Nat) (k : String) (hb : h.length ≤ b) :
    index h (some b) k = none := by
  simp [index, Heap.read_of_le h b hb, GoMap.get]

theorem lt_of_index (h : Heap) (b : Nat) (k : String) (v : Value)
    (hv : index h (some b) k = some v) : b < h.length := by
  by_contra hlt
  rw [index_of_le h b k (Nat.le_of_not_lt hlt)] at hv
  cases hv

theorem setIfAbsent_some (h : Heap) (a : Nat) (k : String) (v : Value) :
    setIfAbsent h (some a) k v = some (h.ensure a k v) := by
  unfold setIfAbsent Heap.ensure assign
  split <;> rfl

theorem setIfAbsent_none (h : Heap) (k : String) (v : Value) :
    setIfAbsent h none k v = none := by
  simp [setIfAbsent, index, assign]

theorem Heap.length_ensure (h : Heap) (a : Nat) (k : String) (v : Value) :
    (h.ensure a k v).length = h.length := by
  unfold Heap.ensure
  split <;> simp [Heap.length_write]

theorem index_ensure (h : Heap) (a b : Nat) (k k' : String) (v : Value) :
    index (h.ensure a k v) (some b) k' =
      if b = a ∧ a < h.length ∧ k' = k ∧ index h (some a) k = none then some v
      else index h (some b) k' := by
  unfold Heap.ensure
  by_cases hp : (index h (some a) k).isSome
  · have : index h (some a) k ≠ none := by
      intro e; rw [e] at hp; cases hp
    simp [hp, this]
  · have hn : index h (some a) k = none := by
      cases hx : index h (some a) k with
      | none => rfl
      | some w => rw [hx] at hp; exact absurd rfl hp
    simp [hp, hn, index_write]

theorem Heap.read_ensure_ne (h : Heap) (a b : Nat) (k : String) (v : Value) (hb : b ≠ a) :
    (h.ensure a k v).read b = h.read b := by
  unfold Heap.ensure
  split
  · rfl
  · simp [Heap.read_write, hb]

theorem Heap.length_ensureAll (h : Heap) (a : Nat) (ds : GoMap) :
    (h.ensureAll a ds).length = h.length := by
  induction ds generalizing h with
  | nil => rfl
  | cons e ds ih => obtain ⟨k, v⟩ := e; simp [Heap.ensureAll, ih, Heap.length_ensure]

theorem Heap.read_ensureAll_ne (h : Heap) (a b : Nat) (ds : GoMap) (hb : b ≠ a) :
    (h.ensureAll a ds).read b = h.read b := by
  induction ds generalizing h with
  | nil => rfl
  | cons e ds ih => obtain ⟨k, v⟩ := e; simp [Heap.ensureAll, ih, Heap.read_ensure_ne _ _ _ _ _ hb]

/-- Merge semantics of a run of defaults on a live map: a binding that is there is
kept, a missing one takes the first default listed for its key. -/
theorem index_ensureAll (h : Heap) (a : Nat) (ds : GoMap) (k : String) (ha : a < h.length) :
    index (h.ensureAll a ds) (some a) k =
      match index h (some a) k with
      | some v => some v
      | none => ds.get k := by
  induction ds generalizing h with
  | nil => simp only [Heap.ensureAll, GoMap.get]; split <;> simp_all
  | cons e ds ih =>
    obtain ⟨k0, v0⟩ := e
    have hlen : a < (h.ensure a k0 v0).length := by rw [Heap.length_ensure]; exact ha
    simp only [Heap.ensureAll, ih _ hlen, index_ensure, GoMap.get]
    by_cases hk : k = k0
    · subst hk
      cases hx : index h (some a) k <;> simp [ha, hx]
    · cases hx : index h (some a) k <;> simp [hk, hx]

theorem moreInformation_eq (h : Heap) (c : Nat) :
    Render.moreInformation h (some c)
      = groupStage h c "more_information" moreInformationDefaults := by
  unfold Render.moreInformation groupStage
  cases hg : groupMap (h.alloc []) (some c) "more_information" h.length with
  | none => simp [setIfAbsent_none, hg]
  | some a =>
    simp [hg, setIfAbsent_some, assign, moreInformationDefaults, Heap.ensureAll]

theorem perfSecBy_eq (h : Heap) (c : Nat) :
    Render.perfSecBy h (some c) = groupStage h c "perf_sec_by" perfSecByDefaults := by
  unfold Render.perfSecBy groupStage
  cases hg : groupMap (h.alloc []) (some c) "perf_sec_by" h.length with
  | none => simp [setIfAbsent_none, hg]
  | some a =>
    simp [hg, setIfAbsent_some, assign, perfSecByDefaults, Heap.ensureAll]

theorem creatorInfo_eq (h : Heap) (c : Nat) :
    Render.creatorInfo h (some c) = groupStage h c "creator_info" creatorInfoDefaults := by
  unfold Render.creatorInfo groupStage
  cases hg : groupMap (h.alloc []) (some c) "creator_info" h.length with
  | none => simp [setIfAbsent_none, hg]
  | some a =>
    simp [hg, setIfAbsent_some, assign, creatorInfoDefaults, Heap.ensureAll]

theorem index_ensure_frame (h : Heap) (a b : Nat) (k k' : String) (v : Value) (hk : k' ≠ k) :
    index (h.ensure a k v) (some b) k' = index h (some b) k' := by
  simp [index_ensure, hk]

theorem index_ensure_mono (h : Heap) (a b : Nat) (k k' : String) (v w : Value)
    (hw : index h (some b) k' = some w) : index (h.ensure a k v) (some b) k' = some w := by
  rw [index_ensure]
  split
  · rename_i hc
    obtain ⟨rfl, _, rfl, hn⟩ := hc
    rw [hn] at hw; cases hw
  · exact hw

theorem index_ensureAll_frame (h : Heap) (a b : Nat) (ds : GoMap) (k : String)
    (hk : ds.get k = none) : index (h.ensureAll a ds) (some b) k = index h (some b) k := by
  induction ds generalizing h with
  | nil => rfl
  | cons e ds ih =>
    obtain ⟨k0, v0⟩ := e
    have hne : k ≠ k0 := by
      intro e; subst e; simp [GoMap.get] at hk
    have hk2 : GoMap.get ds k = none := by simpa [GoMap.get, hne] using hk
    simp [Heap.ensureAll, ih _ hk2, index_ensure_frame _ _ _ _ _ _ hne]

theorem index_ensureAll_mono (h : Heap) (a b : Nat) (ds : GoMap) (k : String) (w : Value)
    (hw : index h (some b) k = some w) : index (h.ensureAll a ds) (some b) k = some w := by
  induction ds generalizing h with
  | nil => exact hw
  | cons e ds ih =>
    obtain ⟨k0, v0⟩ := e
    exact ih _ (index_ensure_mono _ _ _ _ _ _ _ hw)

theorem index_ensureAll_ne (h : Heap) (a b : Nat) (ds : GoMap) (k : String) (hb : b ≠ a) :
    index (h.ensureAll a ds) (some b) k = index h (some b) k := by
  simp [index, Heap.read_ensureAll_ne _ _ _ _ hb]

theorem groupMap_alloc (h : Heap) (c : Nat) (gk : String) (f : Nat) (m : GoMap)
    (hc : c < h.length) : groupMap (h.alloc m) (some c) gk f = groupMap h (some c) gk f := by
  simp [groupMap, index_alloc, Nat.ne_of_lt hc]

theorem groupMap_eq_none (h : Heap) (p : Option Nat) (gk : String) (f : Nat) :
    groupMap h p gk f = none ↔ index h p gk = some (.map none) := by
  unfold groupMap
  cases hx : index h p gk with
  | none => simp
  | some v => cases v <;> simp [Value.asMap]

theorem groupMap_eq_some (h : Heap) (p : Option Nat) (gk : String) (f a : Nat) :
    groupMap h p gk f = some a ↔
      index h p gk = some (.map (some a)) ∨
        (a = f ∧ ∀ r, index h p gk ≠ some (.map r)) := by
  unfold groupMap
  cases hx : index h p gk with
  | none => simp [eq_comm]
  | some v => cases v <;> simp [Value.asMap, eq_comm]

theorem groupStage_eq_none (h : Heap) (c : Nat) (gk : String) (ds : GoMap) (hc : c < h.length) :
    groupStage h c gk ds = none ↔ index h (some c) gk = some (.map none) := by
  unfold groupStage
  rw [groupMap_alloc _ _ _ _ _ hc, ← groupMap_eq_none h (some c) gk h.length]
  cases groupMap h (some c) gk h.length <;> simp

theorem groupStage_eq_some (h h' : Heap) (c : Nat) (gk : String) (ds : GoMap)
    (hc : c < h.length) (hs : groupStage h c gk ds = some h') :
    ∃ a, groupMap h (some c) gk h.length = some a ∧
      h' = ((h.alloc []).ensureAll a ds).write c gk (.map (some a)) := by
  unfold groupStage at hs
  rw [groupMap_alloc _ _ _ _ _ hc] at hs
  cases hg : groupMap h (some c) gk h.length with
  | none => rw [hg] at hs; cases hs
  | some a => rw [hg] at hs; exact ⟨a, rfl, (Option.some.inj hs).symm⟩

theorem groupStage_length (h h' : Heap) (c : Nat) (gk : String) (ds : GoMap)
    (hc : c < h.length) (hs : groupStage h c gk ds = some h') : h'.length = h.length + 1 := by
  obtain ⟨a, _, rfl⟩ := groupStage_eq_some h h' c gk ds hc hs
  simp [Heap.length_write, Heap.length_ensureAll, Heap.length_alloc]

theorem groupStage_frame (h h' : Heap) (c : Nat) (gk : String) (ds : GoMap)
    (hc : c < h.length) (hs : groupStage h c gk ds = some h')
    (b : Nat) (k : String) (hb : b < h.length) (hk : k ≠ gk) (hd : ds.get k = none) :
    index h' (some b) k = index h (some b) k := by
  obtain ⟨a, _, rfl⟩ := groupStage_eq_some h h' c gk ds hc hs
  simp [index_write, hk, index_ensureAll_frame _ _ _ _ _ hd, index_alloc, Nat.ne_of_lt hb]

theorem groupStage_mono (h h' : Heap) (c : Nat) (gk : String) (ds : GoMap)
    (hc : c < h.length) (hs : groupStage h c gk ds = some h')
    (b : Nat) (k : String) (v : Value) (hv : index h (some b) k = some v)
    (hne : ¬ (b = c ∧ k = gk)) : index h' (some b) k = some v := by
  obtain ⟨a, _, rfl⟩ := groupStage_eq_some h h' c gk ds hc hs
  have hb : b < h.length := lt_of_index h b k v hv
  have h0 : index (h.alloc []) (some b) k = some v := by
    simp [index_alloc, Nat.ne_of_lt hb, hv]
  have h1 := index_ensureAll_mono _ a b ds k v h0
  rw [index_write]
  split
  · rename_i hx
    exact absurd ⟨hx.1, hx.2.2⟩ hne
  · exact h1

/-- The exact effect of a group block whose map `a` is a live object: the copy
`c` binds the group key to `a`, the map `a` keeps its bindings and takes the
defaults for the missing ones, and nothing else changes. -/
theorem groupStage_spec (h : Heap) (c a : Nat) (gk : String) (ds : GoMap)
    (hc : c < h.length) (ha : a ≤ h.length)
    (hg : groupMap h (some c) gk h.length = some a) :
    ∃ h', groupStage h c gk ds = some h' ∧ h'.length = h.length + 1 ∧
      ∀ b k, index h' (some b) k =
        if b = c ∧ k = gk then some (.map (some a))
        else if b = a then
          (match index h (some a) k with
           | some v => some v
           | none => ds.get k)
        else index h (some b) k := by
  refine ⟨((h.alloc []).ensureAll a ds).write c gk (.map (some a)), ?_, ?_, ?_⟩
  · unfold groupStage
    rw [groupMap_alloc _ _ _ _ _ hc, hg]
  · simp [Heap.length_write, Heap.length_ensureAll, Heap.length_alloc]
  · intro b k
    have hc' : c < ((h.alloc []).ensureAll a ds).length := by
      rw [Heap.length_ensureAll, Heap.length_alloc]; omega
    have ha' : a < (h.alloc []).length := by rw [Heap.length_alloc]; omega
    rw [index_write]
    by_cases h1 : b = c ∧ k = gk
    · obtain ⟨rfl, rfl⟩ := h1
      simp [hc']
    · have : ¬ (b = c ∧ c < ((h.alloc []).ensureAll a ds).length ∧ k = gk) :=
        fun ⟨x, _, y⟩ => h1 ⟨x, y⟩
      rw [if_neg this, if_neg h1]
      by_cases h2 : b = a
      · subst h2
        rw [if_pos rfl, index_ensureAll _ _ _ _ ha', index_alloc]
        by_cases h3 : b = h.length
        · have : index h (some b) k = none := index_of_le h b k (by omega)
          simp [h3, this, GoMap.get]
          rw [← h3, this]
        · simp [h3]
      · rw [if_neg h2, index_ensureAll_ne _ _ _ _ _ h2, index_alloc]
        by_cases h3 : b = h.length
        · have : index h (some b) k = none := index_of_le h b k (by omega)
          simp [h3, GoMap.get]
          rw [← h3, this]
        · simp [h3]

theorem index_alloc_bag (h : Heap) (p : Option Nat) (k : String) :
    index (h.alloc (bagContents h p)) (some h.length) k = index h p k := by
  rw [index_alloc, if_pos rfl]
  cases p <;> simp [bagContents, index, GoMap.get]

theorem scalars_eq {D : Type} (env : Env D) (h : Heap) (p : Option Nat) :
    Render.scalars env h p
      = some ((h.alloc (bagContents h p)).ensureAll h.length (scalarDefaults env h p)) := by
  simp [Render.scalars, fillParams, setIfAbsent_some, scalarDefaults, Heap.ensureAll,
    composedTitle, scalarsPre, bagContents]

/-- The top-level entries after lines 180-211: a supplied entry is kept, a missing
one takes its default. -/
theorem index_scalars {D : Type} (env : Env D) (h : Heap) (p : Option Nat) (k : String) :
    index ((h.alloc (bagContents h p)).ensureAll h.length (scalarDefaults env h p))
        (some h.length) k =
      match index h p k with
      | some v => some v
      | none => (scalarDefaults env h p).get k := by
  rw [index_ensureAll _ _ _ _ (by rw [Heap.length_alloc]; omega), index_alloc_bag]

theorem index_scalars_ne {D : Type} (env : Env D) (h : Heap) (p : Option Nat) (b : Nat)
    (k : String) (hb : b ≠ h.length) :
    index ((h.alloc (bagContents h p)).ensureAll h.length (scalarDefaults env h p)) (some b) k
      = index h (some b) k := by
  rw [index_ensureAll_ne _ _ _ _ _ hb, index_alloc, if_neg hb]

theorem length_scalars {D : Type} (env : Env D) (h : Heap) (p : Option Nat) :
    ((h.alloc (bagContents h p)).ensureAll h.length (scalarDefaults env h p)).length
      = h.length + 1 := by
  rw [Heap.length_ensureAll, Heap.length_alloc]

theorem indexD_scalarsPre {D : Type} (env : Env D) (h : Heap) (p : Option Nat) :
    indexD (scalarsPre env h p) (some h.length) "error_code"
        = (index h p "error_code").getD (.int 500) ∧
    indexD (scalarsPre env h p) (some h.length) "title"
        = (index h p "title").getD (.str "Internal server error") := by
  unfold indexD scalarsPre
  rw [index_ensureAll _ _ _ _ (by rw [Heap.length_alloc]; omega),
    index_ensureAll _ _ _ _ (by rw [Heap.length_alloc]; omega), index_alloc_bag, index_alloc_bag]
  constructor
  · cases index h p "error_code" <;> simp [GoMap.get]
  · cases index h p "title" <;> simp [GoMap.get]

theorem normalize_eq {D : Type} (env : Env D) (h : Heap) (p : Option Nat) :
    Render.normalize env h p =
      ((groupStage (scalarsHeap env h p) h.length "more_information" moreInformationDefaults).bind
        fun h1 => (groupStage h1 h.length "perf_sec_by" perfSecByDefaults).bind
          fun h2 => (groupStage h2 h.length "creator_info" creatorInfoDefaults).bind
            fun h3 => some (h3, h.length)) := by
  simp [Render.normalize, scalars_eq, moreInformation_eq, perfSecBy_eq, creatorInfo_eq,
    scalarsHeap, bind, pure]

theorem normalize_eq_some {D : Type} (env : Env D) (h h' : Heap) (p : Option Nat) (c : Nat) :
    Render.normalize env h p = some (h', c) ↔
      c = h.length ∧ ∃ h1 h2,
        groupStage (scalarsHeap env h p) h.length "more_information" moreInformationDefaults
          = some h1 ∧
        groupStage h1 h.length "perf_sec_by" perfSecByDefaults = some h2 ∧
        groupStage h2 h.length "creator_info" creatorInfoDefaults = some h' := by
  rw [normalize_eq]
  constructor
  · intro hs
    cases h1e : groupStage (scalarsHeap env h p) h.length "more_information"
        moreInformationDefaults with
    | none => rw [h1e] at hs; cases hs
    | some h1 =>
      rw [h1e] at hs
      cases h2e : groupStage h1 h.length "perf_sec_by" perfSecByDefaults with
      | none => simp [h2e] at hs
      | some h2 =>
        cases h3e : groupStage h2 h.length "creator_info" creatorInfoDefaults with
        | none => simp [h2e, h3e] at hs
        | some h3 =>
          simp [h2e, h3e] at hs
          obtain ⟨rfl, rfl⟩ := hs
          exact ⟨rfl, h1, h2, rfl, h2e, h3e⟩
  · rintro ⟨rfl, h1, h2, e1, e2, e3⟩
    simp [e1, e2, e3]

theorem scalarsHeap_length {D : Type} (env : Env D) (h : Heap) (p : Option Nat) :
    (scalarsHeap env h p).length = h.length + 1 := length_scalars env h p

theorem index_scalarsHeap {D : Type} (env : Env D) (h : Heap) (p : Option Nat) (b : Nat)
    (k : String) : index (scalarsHeap env h p) (some b) k = scalarsView env h p b k := by
  unfold scalarsView
  by_cases hb : b = h.length
  · subst hb; rw [if_pos rfl]; exact index_scalars env h p k
  · rw [if_neg hb]; exact index_scalars_ne env h p b k hb

theorem groupStage_layer (h : Heap) (c a : Nat) (gk : String) (ds : GoMap)
    (f : Nat → String → Option Value) (hf : ∀ b k, index h (some b) k = f b k)
    (hc : c < h.length) (ha : a ≤ h.length)
    (hg : f c gk = some (.map (some a)) ∨ (a = h.length ∧ ∀ r, f c gk ≠ some (.map r))) :
    ∃ h', groupStage h c gk ds = some h' ∧ h'.length = h.length + 1 ∧
      ∀ b k, index h' (some b) k = layer f c a gk ds b k := by
  have hg' : groupMap h (some c) gk h.length = some a := by
    rw [groupMap_eq_some, hf]; exact hg
  obtain ⟨h', e1, e2, e3⟩ := groupStage_spec h c a gk ds hc ha hg'
  refine ⟨h', e1, e2, ?_⟩
  intro b k
  rw [e3 b k]
  simp only [layer, hf]

theorem groupAddr_cases (h : Heap) (p : Option Nat) (gk : String) (f : Nat)
    (hn : index h p gk ≠ some (.map none)) :
    index h p gk = some (.map (some (groupAddr h p gk f))) ∨
      (groupAddr h p gk f = f ∧ ∀ r, index h p gk ≠ some (.map r)) := by
  unfold groupAddr
  cases hx : index h p gk with
  | none => simp
  | some v =>
    cases v with
    | map r =>
      cases r with
      | none => exact absurd hx hn
      | some a => simp
    | _ => simp

theorem groupAddr_lt (h : Heap) (p : Option Nat) (gk : String) (f : Nat)
    (hl : (indexD h p gk).live h.length = true) :
    groupAddr h p gk f < h.length ∨ groupAddr h p gk f = f := by
  unfold groupAddr
  unfold indexD at hl
  cases hx : index h p gk with
  | none => simp
  | some v =>
    rw [hx] at hl
    cases v with
    | map r =>
      cases r with
      | none => simp
      | some a => left; simpa [Value.live] using hl
    | _ => simp

theorem scalarsView_group {D : Type} (env : Env D) (h : Heap) (p : Option Nat) (gk : String)
    (hg : gk ∈ groupKeys) : scalarsView env h p h.length gk = index h p gk := by
  simp only [groupKeys, List.mem_cons, List.mem_singleton, List.mem_nil_iff, or_false] at hg
  unfold scalarsView
  rw [if_pos rfl]
  cases hx : index h p gk with
  | some v => rfl
  | none => rcases hg with rfl | rfl | rfl <;> simp [scalarDefaults, GoMap.get]

/-- The normalisation of a well-formed bag without a nil group returns, and its
final heap is the view `normalView` of the input. -/
theorem normalize_spec {D : Type} (env : Env D) (h : Heap) (p : Option Nat)
    (hl : groupsLive h p) (hn : groupsNonNil h p) :
    ∃ h', Render.normalize env h p = some (h', h.length) ∧ h'.length = h.length + 4 ∧
      ∀ b k, index h' (some b) k = normalView env h p b k := by
  have hl1 := hl "more_information" (by simp [groupKeys])
  have hl2 := hl "perf_sec_by" (by simp [groupKeys])
  have hl3 := hl "creator_info" (by simp [groupKeys])
  have hn1 := hn "more_information" (by simp [groupKeys])
  have hn2 := hn "perf_sec_by" (by simp [groupKeys])
  have hn3 := hn "creator_info" (by simp [groupKeys])
  have g1 := scalarsView_group env h p "more_information" (by simp [groupKeys])
  have g2 := scalarsView_group env h p "perf_sec_by" (by simp [groupKeys])
  have g3 := scalarsView_group env h p "creator_info" (by simp [groupKeys])
  have a1 := groupAddr_lt h p "more_information" (h.length + 1) hl1
  have a2 := groupAddr_lt h p "perf_sec_by" (h.length + 2) hl2
  have a3 := groupAddr_lt h p "creator_info" (h.length + 3) hl3
  have c1 := groupAddr_cases h p "more_information" (h.length + 1) hn1
  have c2 := groupAddr_cases h p "perf_sec_by" (h.length + 2) hn2
  have c3 := groupAddr_cases h p "creator_info" (h.length + 3) hn3
  have len0 := scalarsHeap_length env h p
  -- more_information
  obtain ⟨h1, e1, l1, v1⟩ := groupStage_layer (scalarsHeap env h p) h.length
    (groupAddr h p "more_information" (h.length + 1)) "more_information"
    moreInformationDefaults (scalarsView env h p) (index_scalarsHeap env h p)
    (by omega) (by omega) (by rw [g1, len0]; exact c1)
  -- perf_sec_by
  have f2 : layer (scalarsView env h p) h.length
      (groupAddr h p "more_information" (h.length + 1)) "more_information"
      moreInformationDefaults h.length "perf_sec_by" = index h p "perf_sec_by" := by
    have : h.length ≠ groupAddr h p "more_information" (h.length + 1) := by omega
    simp [layer, this, g2]
  obtain ⟨h2, e2, l2, v2⟩ := groupStage_layer h1 h.length
    (groupAddr h p "perf_sec_by" (h.length + 2)) "perf_sec_by" perfSecByDefaults _ v1
    (by omega) (by omega) (by rw [f2, l1, len0]; exact c2)
  -- creator_info
  have f3 : layer (layer (scalarsView env h p) h.length
      (groupAddr h p "more_information" (h.length + 1)) "more_information"
      moreInformationDefaults) h.length (groupAddr h p "perf_sec_by" (h.length + 2))
      "perf_sec_by" perfSecByDefaults h.length "creator_info" = index h p "creator_info" := by
    have x1 : h.length ≠ groupAddr h p "more_information" (h.length + 1) := by omega
    have x2 : h.length ≠ groupAddr h p "perf_sec_by" (h.length + 2) := by omega
    simp [layer, x1, x2, g3]
  obtain ⟨h3, e3, l3, v3⟩ := groupStage_layer h2 h.length
    (groupAddr h p "creator_info" (h.length + 3)) "creator_info" creatorInfoDefaults _ v2
    (by omega) (by omega) (by rw [f3, l2, l1, len0]; exact c3)
  refine ⟨h3, ?_, by omega, ?_⟩
  · rw [normalize_eq_some]; exact ⟨rfl, h1, h2, e1, e2, e3⟩
  · intro b k; rw [v3 b k]; rfl

/-- The normalisation panics exactly when a group key is bound to the nil map. -/
theorem normalize_eq_none {D : Type} (env : Env D) (h : Heap) (p : Option Nat) :
    Render.normalize env h p = none ↔ ¬ groupsNonNil h p := by
  have len0 := scalarsHeap_length env h p
  have i1 : index (scalarsHeap env h p) (some h.length) "more_information"
      = index h p "more_information" := by
    rw [index_scalarsHeap]; exact scalarsView_group env h p _ (by simp [groupKeys])
  have i2 : index (scalarsHeap env h p) (some h.length) "perf_sec_by"
      = index h p "perf_sec_by" := by
    rw [index_scalarsHeap]; exact scalarsView_group env h p _ (by simp [groupKeys])
  have i3 : index (scalarsHeap env h p) (some h.length) "creator_info"
      = index h p "creator_info" := by
    rw [index_scalarsHeap]; exact scalarsView_group env h p _ (by simp [groupKeys])
  have hN : groupsNonNil h p ↔ index h p "more_information" ≠ some (.map none) ∧
      index h p "perf_sec_by" ≠ some (.map none) ∧
      index h p "creator_info" ≠ some (.map none) := by
    simp [groupsNonNil, groupKeys]
  rw [hN, normalize_eq]
  cases e1 : groupStage (scalarsHeap env h p) h.length "more_information"
      moreInformationDefaults with
  | none =>
    rw [groupStage_eq_none _ _ _ _ (by omega), i1] at e1
    simp [e1]
  | some h1 =>
    have n1 : index h p "more_information" ≠ some (.map none) := by
      intro e
      rw [← i1, ← groupStage_eq_none _ _ _ moreInformationDefaults (by omega), e1] at e
      cases e
    have l1 := groupStage_length _ _ _ _ _ (by omega) e1
    have j2 : index h1 (some h.length) "perf_sec_by" = index h p "perf_sec_by" := by
      rw [groupStage_frame _ _ _ _ _ (by omega) e1 h.length "perf_sec_by" (by omega)
        (by decide) (by decide), i2]
    have j3 : index h1 (some h.length) "creator_info" = index h p "creator_info" := by
      rw [groupStage_frame _ _ _ _ _ (by omega) e1 h.length "creator_info" (by omega)
        (by decide) (by decide), i3]
    cases e2 : groupStage h1 h.length "perf_sec_by" perfSecByDefaults with
    | none =>
      have e2' := e2
      rw [groupStage_eq_none _ _ _ _ (by omega), j2] at e2'
      simp [e2, e2']
    | some h2 =>
      have n2 : index h p "perf_sec_by" ≠ some (.map none) := by
        intro e
        rw [← j2, ← groupStage_eq_none _ _ _ perfSecByDefaults (by omega), e2] at e
        cases e
      have l2 := groupStage_length _ _ _ _ _ (by omega) e2
      have k3 : index h2 (some h.length) "creator_info" = index h p "creator_info" := by
        rw [groupStage_frame _ _ _ _ _ (by omega) e2 h.length "creator_info" (by omega)
          (by decide) (by decide), j3]
      cases e3 : groupStage h2 h.length "creator_info" creatorInfoDefaults with
      | none =>
        have e3' := e3
        rw [groupStage_eq_none _ _ _ _ (by omega), k3] at e3'
        simp [e2, e3, e3']
      | some h3 =>
        have n3 : index h p "creator_info" ≠ some (.map none) := by
          intro e
          rw [← k3, ← groupStage_eq_none _ _ _ creatorInfoDefaults (by omega), e3] at e
          cases e
        simp [e2, e3, n1, n2, n3]

/-- What holds of every completed normalisation, well-formed bag or not: the copy
is the new object at `h.length`; a binding of an object of the caller's heap is
never changed or removed; an entry of the bag outside the group keys is kept in
the copy; and an entry that is neither a group key nor a key of a group default
is the supplied value or else its top-level default. -/
theorem normalize_frame {D : Type} (env : Env D) (h h' : Heap) (p : Option Nat) (c : Nat)
    (hs : Render.normalize env h p = some (h', c)) :
    c = h.length ∧ h'.length = h.length + 4 ∧
    (∀ b k v, index h (some b) k = some v → index h' (some b) k = some v) ∧
    (∀ k v, index h p k = some v → k ∉ groupKeys → index h' (some c) k = some v) ∧
    (∀ k, k ∉ groupKeys → k ∉ ["hidden", "link", "text", "for"] →
      index h' (some c) k = scalarsView env h p h.length k) := by
  rw [normalize_eq_some] at hs
  obtain ⟨rfl, h1, h2, e1, e2, e3⟩ := hs
  have len0 := scalarsHeap_length env h p
  have l1 := groupStage_length _ _ _ _ _ (by omega) e1
  have l2 := groupStage_length _ _ _ _ _ (by omega) e2
  have l3 := groupStage_length _ _ _ _ _ (by omega) e3
  refine ⟨rfl, by omega, ?_, ?_, ?_⟩
  · intro b k v hv
    have hb := lt_of_index h b k v hv
    have hne : ∀ g : String, ¬ (b = h.length ∧ k = g) := fun g hx => by omega
    have s0 : index (scalarsHeap env h p) (some b) k = some v := by
      rw [index_scalarsHeap, scalarsView, if_neg (by omega)]; exact hv
    have s1 := groupStage_mono _ _ _ _ _ (by omega) e1 b k v s0 (hne _)
    have s2 := groupStage_mono _ _ _ _ _ (by omega) e2 b k v s1 (hne _)
    exact groupStage_mono _ _ _ _ _ (by omega) e3 b k v s2 (hne _)
  · intro k v hv hk
    simp only [groupKeys, List.mem_cons, List.mem_singleton, List.mem_nil_iff, or_false,
      not_or] at hk
    have s0 : index (scalarsHeap env h p) (some h.length) k = some v := by
      rw [index_scalarsHeap, scalarsView, if_pos rfl, hv]
    have s1 := groupStage_mono _ _ _ _ _ (by omega) e1 h.length k v s0 (fun hx => hk.1 hx.2)
    have s2 := groupStage_mono _ _ _ _ _ (by omega) e2 h.length k v s1 (fun hx => hk.2.1 hx.2)
    exact groupStage_mono _ _ _ _ _ (by omega) e3 h.length k v s2 (fun hx => hk.2.2 hx.2)
  · intro k hk hd
    simp only [groupKeys, List.mem_cons, List.mem_singleton, List.mem_nil_iff, or_false,
      not_or] at hk hd
    obtain ⟨d1, d2, d3, d4⟩ := hd
    rw [groupStage_frame _ _ _ _ _ (by omega) e3 h.length k (by omega) hk.2.2
        (by simp [creatorInfoDefaults, GoMap.get, d1]),
      groupStage_frame _ _ _ _ _ (by omega) e2 h.length k (by omega) hk.2.1
        (by simp [perfSecByDefaults, GoMap.get, d2, d3]),
      groupStage_frame _ _ _ _ _ (by omega) e1 h.length k (by omega) hk.1
        (by simp [moreInformationDefaults, GoMap.get, d1, d2, d3, d4]),
      index_scalarsHeap]

/-! ## The status presenter -/

theorem statusItem_of_map (h : Heap) (params : Option Nat) (itemID : String) (a : Nat)
    (hg : index h params (itemID ++ "_status") = some (.map (some a))) :
    statusItem h params itemID = h.read a := by
  simp [statusItem, hg, Value.asMap]

theorem statusItem_of_not_map (h : Heap) (params : Option Nat) (itemID : String)
    (hg : ∀ a, index h params (itemID ++ "_status") ≠ some (.map (some a))) :
    statusItem h params itemID = [] := by
  cases hx : index h params (itemID ++ "_status") with
  | none => simp [statusItem, hx]
  | some v =>
    cases v with
    | map r =>
      cases r with
      | none => simp [statusItem, hx, Value.asMap]
      | some a => exact absurd hx (hg a)
    | _ => simp [statusItem, hx, Value.asMap]

theorem getMapValue_str (m : GoMap) (key d s : String) (hs : m.get key = some (.str s)) :
    getMapValue m key d = s := by
  simp [getMapValue, hs]

theorem getMapValue_default (m : GoMap) (key d : String)
    (hs : ∀ s, m.get key ≠ some (.str s)) : getMapValue m key d = d := by
  unfold getMapValue
  cases hx : m.get key with
  | none => rfl
  | some v =>
    cases v with
    | str s => exact absurd hx (hs s)
    | _ => rfl

theorem getMapValue_empty_or (m : GoMap) (key : String)
    (hs : ∀ s, m.get key = some (.str s) → s = "") : getMapValue m key "" = "" := by
  unfold getMapValue
  cases hx : m.get key with
  | none => rfl
  | some v =>
    cases v with
    | str s => exact hs s hx
    | _ => rfl

/-- C2, as stated, fails: a group that supplies the empty string as `status_text`
does not get the empty string back as `StatusText`. -/
theorem C2_refuted_by_empty_status_text :
    ¬ (∀ (h : Heap) (params : Option Nat) (itemID errorSource : String) (a : Nat) (s : String),
        index h params (itemID ++ "_status") = some (.map (some a)) →
        index h (some a) "status_text" = some (.str s) →
        (prepareStatusInfo h params itemID errorSource).StatusText = s) := by
  intro hc
  have h1 := hc [[("browser_status", .map (some 1))], [("status_text", .str "")]]
    (some 0) "browser" "" 1 "" (by decide) (by decide)
  revert h1
  decide

/-- C2, amended: when the `<id>_status` group supplies a non-empty string
`status_text`, `StatusText` is that string whatever the status keyword; when it
supplies none, or one that is empty or not a string, `StatusText` is "Working" if
the resolved status is exactly "ok" and "Error" otherwise.  (`statusItem` is the
group: its bindings are those of the map bound to `<id>_status`, and it has none
when that entry is absent or not a map.) -/
theorem C2_status_text (h : Heap) (params : Option Nat) (itemID errorSource : String) :
    (∀ s, (statusItem h params itemID).get "status_text" = some (.str s) → s ≠ "" →
      (prepareStatusInfo h params itemID errorSource).StatusText = s) ∧
    ((∀ s, (statusItem h params itemID).get "status_text" = some (.str s) → s = "") →
      (prepareStatusInfo h params itemID errorSource).StatusText =
        if (prepareStatusInfo h params itemID errorSource).Status = "ok" then "Working"
        else "Error") ∧
    (∀ a, index h params (itemID ++ "_status") = some (.map (some a)) →
      ∀ key, (statusItem h params itemID).get key = index h (some a) key) ∧
    ((∀ a, index h params (itemID ++ "_status") ≠ some (.map (some a))) →
      ∀ key, (statusItem h params itemID).get key = none) := by
  refine ⟨?_, ?_, ?_, ?_⟩
  · intro s hs hne
    have : getMapValue (statusItem h params itemID) "status_text" "" = s :=
      getMapValue_str _ _ _ _ hs
    simp [prepareStatusInfo, this, hne]
  · intro hs
    have : getMapValue (statusItem h params itemID) "status_text" "" = "" :=
      getMapValue_empty_or _ _ hs
    simp [prepareStatusInfo, this]
  · intro a hg key
    rw [statusItem_of_map h params itemID a hg]
    rfl
  · intro hg key
    rw [statusItem_of_not_map h params itemID hg]
    rfl

theorem C2_status_text_witness :
    (prepareStatusInfo
        [[("browser_status", .map (some 1))],
         [("status", .str "error"), ("status_text", .str "Out of Memory"),
          ("location", .str "Local")]]
        (some 0) "browser" "browser").StatusText = "Out of Memory" :=
  (C2_status_text _ (some 0) "browser" "browser").1 "Out of Memory" (by decide) (by decide)

/-! ## From the normalisation to the template data -/

theorem data_eq_some {D : Type} (env : Env D) (h h' : Heap) (p : Option Nat)
    (opts : Option RenderOptions) (d : TemplateData) :
    Render.data env h p opts = some (h', d) ↔
      Render.normalize env h p = some (h', d.params) ∧
      d.resources_use_cdn = (opts.getD ⟨true, true⟩).UseCDN ∧
      d.resources_cdn = (if (opts.getD ⟨true, true⟩).UseCDN then "https://cloudflare.com" else "") ∧
      d.allow_html = (opts.getD ⟨true, true⟩).AllowHTML ∧
      d.browser_status = prepareStatusInfo h' (some d.params) "browser"
        (Render.errorSource h' (some d.params)) ∧
      d.cloudflare_status = prepareStatusInfo h' (some d.params) "cloudflare"
        (Render.errorSource h' (some d.params)) ∧
      d.host_status = prepareStatusInfo h' (some d.params) "host"
        (Render.errorSource h' (some d.params)) := by
  unfold Render.data
  cases hn : Render.normalize env h p with
  | none => simp
  | some r =>
    obtain ⟨h1, c⟩ := r
    obtain ⟨c0, u, rc, bs, cs, hs, ah⟩ := d
    cases opts with
    | none =>
      simp only [bind, Option.bind, pure, Option.some.injEq, Prod.mk.injEq, Option.getD,
        TemplateData.mk.injEq, if_true]
      constructor
      · rintro ⟨rfl, rfl, rfl, rfl, rfl, rfl, rfl, rfl⟩; simp
      · rintro ⟨⟨rfl, rfl⟩, rfl, rfl, rfl, rfl, rfl, rfl⟩; simp
    | some o =>
      obtain ⟨ah0, u0⟩ := o
      cases u0 <;>
      · simp only [bind, Option.bind, pure, Option.some.injEq, Prod.mk.injEq, Option.getD,
          TemplateData.mk.injEq, if_true]
        constructor
        · rintro ⟨rfl, rfl, rfl, rfl, rfl, rfl, rfl, rfl⟩; simp
        · rintro ⟨⟨rfl, rfl⟩, rfl, rfl, rfl, rfl, rfl, rfl⟩; simp

theorem data_of_normalize {D : Type} (env : Env D) (h h' : Heap) (p : Option Nat)
    (opts : Option RenderOptions) (c : Nat) (hn : Render.normalize env h p = some (h', c)) :
    ∃ d, Render.data env h p opts = some (h', d) ∧ d.params = c := by
  refine ⟨⟨c, (opts.getD ⟨true, true⟩).UseCDN,
    (if (opts.getD ⟨true, true⟩).UseCDN then "https://cloudflare.com" else ""),
    prepareStatusInfo h' (some c) "browser" (Render.errorSource h' (some c)),
    prepareStatusInfo h' (some c) "cloudflare" (Render.errorSource h' (some c)),
    prepareStatusInfo h' (some c) "host" (Render.errorSource h' (some c)),
    (opts.getD ⟨true, true⟩).AllowHTML⟩, ?_, rfl⟩
  rw [data_eq_some]
  exact ⟨hn, rfl, rfl, rfl, rfl, rfl, rfl⟩

theorem render_of_data (env : Env TemplateData) (h h' : Heap) (p : Option Nat)
    (opts : Option RenderOptions) (d : TemplateData)
    (hd : Render.data env h p opts = some (h', d)) :
    ∃ out err, Render env h p opts = some (h', out, err) := by
  unfold Render
  rw [hd]
  cases hx : env.execute h' d with
  | error e =>
    exact ⟨"", some (.mk ("template execution failed: " ++ e) (some (.mk e none))),
      by simp [bind, Option.bind, pure, hx]⟩
  | ok o => exact ⟨o, none, by simp [bind, Option.bind, pure, hx]⟩

theorem render_eq_none (env : Env TemplateData) (h : Heap) (p : Option Nat)
    (opts : Option RenderOptions) :
    Render env h p opts = none ↔ Render.normalize env h p = none := by
  constructor
  · intro hr
    cases hn : Render.normalize env h p with
    | none => rfl
    | some r =>
      obtain ⟨d, hd, _⟩ := data_of_normalize env h r.1 p opts r.2 hn
      obtain ⟨out, err, e⟩ := render_of_data env h r.1 p opts d hd
      rw [hr] at e; cases e
  · intro hn
    simp [Render, Render.data, hn, bind, Option.bind]

theorem errorSource_eq_iff (h : Heap) (p : Option Nat) (c : String) (hc : c ≠ "") :
    Render.errorSource h p = c ↔ index h p "error_source" = some (.str c) := by
  unfold Render.errorSource
  cases index h p "error_source" with
  | none => simp [Ne.symm hc]
  | some v => cases v <;> simp [Ne.symm hc]

theorem scalarsView_of_no_default {D : Type} (env : Env D) (h : Heap) (p : Option Nat)
    (k : String) (hk : (scalarDefaults env h p).get k = none) :
    scalarsView env h p h.length k = index h p k := by
  unfold scalarsView
  rw [if_pos rfl, hk]
  cases index h p k <;> rfl

/-- The error source `Render` reads from its copy is the one of the caller's bag. -/
theorem error_source_of_normalize {D : Type} (env : Env D) (h h' : Heap) (p : Option Nat)
    (c : Nat) (hs : Render.normalize env h p = some (h', c)) :
    index h' (some c) "error_source" = index h p "error_source" := by
  obtain ⟨_, _, _, _, h5⟩ := normalize_frame env h h' p c hs
  rw [h5 "error_source" (by decide) (by decide)]
  exact scalarsView_of_no_default env h p _ (by simp [scalarDefaults, GoMap.get])

/-- C3: with the error source read from `error_source` as `Render` reads it, the
record of a component `c` of browser, cloudflare and host carries the marker
"cf-error-source" exactly when `error_source` is the string `c`, and the empty
class otherwise; with `error_source` "cloudflare" only the cloudflare record
carries it; no two of the three records carry it; and the three records in the template
data of `Render` are marked by the `error_source` of the caller's bag in this
way. -/
theorem C3_error_class (h : Heap) (paramsCopy : Option Nat) (env : Env TemplateData)
    (h0 : Heap) (params : Option Nat) (opts : Option RenderOptions) :
    (∀ c ∈ ["browser", "cloudflare", "host"],
      (prepareStatusInfo h paramsCopy c (Render.errorSource h paramsCopy)).ErrorClass =
        if index h paramsCopy "error_source" = some (.str c) then "cf-error-source" else "") ∧
    (index h paramsCopy "error_source" = some (.str "cloudflare") →
      (prepareStatusInfo h paramsCopy "cloudflare"
          (Render.errorSource h paramsCopy)).ErrorClass = "cf-error-source" ∧
      (prepareStatusInfo h paramsCopy "browser"
          (Render.errorSource h paramsCopy)).ErrorClass = "" ∧
      (prepareStatusInfo h paramsCopy "host"
          (Render.errorSource h paramsCopy)).ErrorClass = "") ∧
    (∀ c ∈ ["browser", "cloudflare", "host"], ∀ d ∈ ["browser", "cloudflare", "host"],
      (prepareStatusInfo h paramsCopy c (Render.errorSource h paramsCopy)).ErrorClass
          = "cf-error-source" →
      (prepareStatusInfo h paramsCopy d (Render.errorSource h paramsCopy)).ErrorClass
          = "cf-error-source" →
      c = d) ∧
    (∀ h' d, Render.data env h0 params opts = some (h', d) →
      d.browser_status.ErrorClass =
        (if index h0 params "error_source" = some (.str "browser") then "cf-error-source"
         else "") ∧
      d.cloudflare_status.ErrorClass =
        (if index h0 params "error_source" = some (.str "cloudflare") then "cf-error-source"
         else "") ∧
      d.host_status.ErrorClass =
        (if index h0 params "error_source" = some (.str "host") then "cf-error-source"
         else "")) := by
  have key : ∀ (h : Heap) (paramsCopy : Option Nat) (c : String), c ≠ "" →
      (prepareStatusInfo h paramsCopy c (Render.errorSource h paramsCopy)).ErrorClass =
        if index h paramsCopy "error_source" = some (.str c) then "cf-error-source" else "" := by
    intro h paramsCopy c hc
    simp only [prepareStatusInfo, errorSource_eq_iff h paramsCopy c hc]
  have hne : ∀ c ∈ ["browser", "cloudflare", "host"], c ≠ "" := by decide
  refine ⟨fun c hc => key h paramsCopy c (hne c hc), ?_, ?_, ?_⟩
  · intro hx
    rw [key h paramsCopy "cloudflare" (by decide), key h paramsCopy "browser" (by decide),
      key h paramsCopy "host" (by decide), hx]
    decide
  · intro c hc d hd h1 h2
    rw [key h paramsCopy c (hne c hc)] at h1
    rw [key h paramsCopy d (hne d hd)] at h2
    by_cases e1 : index h paramsCopy "error_source" = some (.str c)
    · by_cases e2 : index h paramsCopy "error_source" = some (.str d)
      · rw [e1] at e2
        injection e2 with e3
        injection e3
      · rw [if_neg e2] at h2; exact absurd h2 (by decide)
    · rw [if_neg e1] at h1; exact absurd h1 (by decide)
  · intro h' d hd
    rw [data_eq_some] at hd
    obtain ⟨hn, _, _, _, hb, hc, hh⟩ := hd
    have he := error_source_of_normalize env h0 h' params d.params hn
    rw [hb, hc, hh, key h' (some d.params) "browser" (by decide),
      key h' (some d.params) "cloudflare" (by decide),
      key h' (some d.params) "host" (by decide), he]
    exact ⟨rfl, rfl, rfl⟩

/-- C4, as stated, fails: a group with status "ok" that supplies the empty string
as `status_text_color` does not get the empty string back as `StatusTextColor`. -/
theorem C4_refuted_by_empty_color :
    ¬ (∀ (h : Heap) (params : Option Nat) (itemID errorSource : String) (a : Nat) (s : String),
        index h params (itemID ++ "_status") = some (.map (some a)) →
        index h (some a) "status_text_color" = some (.str s) →
        (prepareStatusInfo h params itemID errorSource).StatusTextColor = s) := by
  intro hc
  have h1 := hc [[("browser_status", .map (some 1))], [("status_text_color", .str "")]]
    (some 0) "browser" "" 1 "" (by decide) (by decide)
  revert h1
  decide

/-- C4, amended: `StatusTextColor` is the supplied `status_text_color` when that
is a non-empty string; otherwise (none supplied, or an empty or non-string one)
it is "#9bca3e" when the resolved status is "ok", "#bd2426" when it is "error",
and the empty string for any other status.  (`statusItem` is the group, as in
the last two parts.) -/
theorem C4_status_text_color (h : Heap) (params : Option Nat) (itemID errorSource : String) :
    (∀ s, (statusItem h params itemID).get "status_text_color" = some (.str s) → s ≠ "" →
      (prepareStatusInfo h params itemID errorSource).StatusTextColor = s) ∧
    ((∀ s, (statusItem h params itemID).get "status_text_color" = some (.str s) → s = "") →
      (prepareStatusInfo h params itemID errorSource).StatusTextColor =
        if (prepareStatusInfo h params itemID errorSource).Status = "ok" then "#9bca3e"
        else if (prepareStatusInfo h params itemID errorSource).Status = "error" then "#bd2426"
        else "") ∧
    (∀ a, index h params (itemID ++ "_status") = some (.map (some a)) →
      ∀ key, (statusItem h params itemID).get key = index h (some a) key) ∧
    ((∀ a, index h params (itemID ++ "_status") ≠ some (.map (some a))) →
      ∀ key, (statusItem h params itemID).get key = none) := by
  refine ⟨?_, ?_, ?_, ?_⟩
  · intro s hs hne
    have : getMapValue (statusItem h params itemID) "status_text_color" "" = s :=
      getMapValue_str _ _ _ _ hs
    simp [prepareStatusInfo, this, hne]
  · intro hs
    have : getMapValue (statusItem h params itemID) "status_text_color" "" = "" :=
      getMapValue_empty_or _ _ hs
    simp [prepareStatusInfo, this]
  · intro a hg key
    rw [statusItem_of_map h params itemID a hg]
    rfl
  · intro hg key
    rw [statusItem_of_not_map h params itemID hg]
    rfl

/-- C9: for each of browser, cloudflare and host, when `<id>_status` is absent or
is not a map (or is the nil map), the record holds the defaults of the fixed
table, `Location` and `Name` equal to them, status "ok", text "Working" and
colour "#9bca3e". -/
theorem C9_all_defaults (h : Heap) (params : Option Nat) (errorSource itemID : String)
    (hid : itemID ∈ ["browser", "cloudflare", "host"])
    (hg : ∀ a, index h params (itemID ++ "_status") ≠ some (.map (some a))) :
    prepareStatusInfo h params itemID errorSource =
      { Icon := if itemID = "browser" then "browser"
                else if itemID = "cloudflare" then "cloud" else "server",
        DefaultLocation := if itemID = "browser" then "You"
                else if itemID = "cloudflare" then "San Francisco" else "Website",
        DefaultName := if itemID = "browser" then "Browser"
                else if itemID = "cloudflare" then "Cloudflare" else "Host",
        Location := if itemID = "browser" then "You"
                else if itemID = "cloudflare" then "San Francisco" else "Website",
        Name := if itemID = "browser" then "Browser"
                else if itemID = "cloudflare" then "Cloudflare" else "Host",
        Status := "ok", StatusText := "Working", StatusTextColor := "#9bca3e",
        ErrorClass := if errorSource = itemID then "cf-error-source" else "" } := by
  have hi := statusItem_of_not_map h params itemID hg
  simp only [List.mem_cons, List.mem_singleton, List.mem_nil_iff, or_false] at hid
  rcases hid with rfl | rfl | rfl <;>
    simp [prepareStatusInfo, hi, getMapValue, GoMap.get]

theorem C9_all_defaults_witness :
    prepareStatusInfo [[("cloudflare_status", .str "down"), ("title", .str "T")]] (some 0)
        "cloudflare" "host" =
      { Icon := "cloud", DefaultLocation := "San Francisco", DefaultName := "Cloudflare",
        Location := "San Francisco", Name := "Cloudflare", Status := "ok",
        StatusText := "Working", StatusTextColor := "#9bca3e", ErrorClass := "" } :=
  C9_all_defaults [[("cloudflare_status", .str "down"), ("title", .str "T")]] (some 0)
    "host" "cloudflare" (by decide) (by
      intro a
      have e : index [[("cloudflare_status", Value.str "down"), ("title", .str "T")]] (some 0)
          ("cloudflare" ++ "_status") = some (.str "down") := by decide
      rw [e]
      intro hx
      cases hx)

/-! ## The caller's bag after `Render` -/

/-- C1, evaluated at the failing input: the bag of `example_custom`, reduced to
`more_information: {for: "no information"}` (object 1 inside the bag at object
0).  `Render` returns, and the caller's nested map, which had no `hidden`, `link`
or `text`, holds all three afterwards. -/
theorem C1_nested_group_mutated (env : Env TemplateData) (opts : Option RenderOptions) :
    ∃ h' out err,
      Render env [[("more_information", .map (some 1))], [("for", .str "no information")]]
        (some 0) opts = some (h', out, err) ∧
      index [[("more_information", .map (some 1))], [("for", .str "no information")]]
        (some 1) "hidden" = none ∧
      index h' (some 1) "hidden" = some (.bool false) ∧
      index h' (some 1) "link" = some (.str "https://www.cloudflare.com/") ∧
      index h' (some 1) "text" = some (.str "cloudflare.com") := by
  obtain ⟨h', hn, _, hv⟩ := normalize_spec env
    [[("more_information", .map (some 1))], [("for", .str "no information")]] (some 0)
    (by decide) (by decide)
  obtain ⟨d, hd, _⟩ := data_of_normalize env _ h' (some 0) opts _ hn
  obtain ⟨out, err, hr⟩ := render_of_data env _ h' (some 0) opts d hd
  refine ⟨h', out, err, hr, by decide, ?_, ?_, ?_⟩
  · rw [hv]; simp [normalView, layer, groupAddr, scalarsView, index, Heap.read, GoMap.get,
      moreInformationDefaults, perfSecByDefaults, creatorInfoDefaults]
  · rw [hv]; simp [normalView, layer, groupAddr, scalarsView, index, Heap.read, GoMap.get,
      moreInformationDefaults, perfSecByDefaults, creatorInfoDefaults]
  · rw [hv]; simp [normalView, layer, groupAddr, scalarsView, index, Heap.read, GoMap.get,
      moreInformationDefaults, perfSecByDefaults, creatorInfoDefaults]

/-- The copy binds each group key to the map its block worked on. -/
theorem normalView_group {D : Type} (env : Env D) (h : Heap) (p : Option Nat)
    (hl : groupsLive h p) :
    normalView env h p h.length "more_information"
      = some (.map (some (groupAddr h p "more_information" (h.length + 1)))) ∧
    normalView env h p h.length "perf_sec_by"
      = some (.map (some (groupAddr h p "perf_sec_by" (h.length + 2)))) ∧
    normalView env h p h.length "creator_info"
      = some (.map (some (groupAddr h p "creator_info" (h.length + 3)))) := by
  have a1 := groupAddr_lt h p "more_information" (h.length + 1) (hl _ (by simp [groupKeys]))
  have a2 := groupAddr_lt h p "perf_sec_by" (h.length + 2) (hl _ (by simp [groupKeys]))
  have a3 := groupAddr_lt h p "creator_info" (h.length + 3) (hl _ (by simp [groupKeys]))
  have x1 : h.length ≠ groupAddr h p "more_information" (h.length + 1) := by omega
  have x2 : h.length ≠ groupAddr h p "perf_sec_by" (h.length + 2) := by omega
  have x3 : h.length ≠ groupAddr h p "creator_info" (h.length + 3) := by omega
  simp [normalView, layer, x1, x2, x3]

/-- A top-level entry of the copy other than the three groups: the supplied value,
or else the top-level default. -/
theorem normalView_top {D : Type} (env : Env D) (h : Heap) (p : Option Nat)
    (hl : groupsLive h p) (k : String) (hk : k ∉ groupKeys) :
    normalView env h p h.length k =
      match index h p k with
      | some v => some v
      | none => (scalarDefaults env h p).get k := by
  have a1 := groupAddr_lt h p "more_information" (h.length + 1) (hl _ (by simp [groupKeys]))
  have a2 := groupAddr_lt h p "perf_sec_by" (h.length + 2) (hl _ (by simp [groupKeys]))
  have a3 := groupAddr_lt h p "creator_info" (h.length + 3) (hl _ (by simp [groupKeys]))
  have x1 : h.length ≠ groupAddr h p "more_information" (h.length + 1) := by omega
  have x2 : h.length ≠ groupAddr h p "perf_sec_by" (h.length + 2) := by omega
  have x3 : h.length ≠ groupAddr h p "creator_info" (h.length + 3) := by omega
  simp only [groupKeys, List.mem_cons, List.mem_singleton, List.mem_nil_iff, or_false,
    not_or] at hk
  simp [normalView, layer, x1, x2, x3, hk.1, hk.2.1, hk.2.2, scalarsView]

/-- A group entry that is not a map is replaced by a new map that holds exactly the
defaults of the group. -/
theorem normalView_fresh {D : Type} (env : Env D) (h : Heap) (p : Option Nat)
    (hl : groupsLive h p) (k : String) :
    ((∀ r, index h p "more_information" ≠ some (.map r)) →
      groupAddr h p "more_information" (h.length + 1) = h.length + 1 ∧
      normalView env h p (h.length + 1) k = moreInformationDefaults.get k) ∧
    ((∀ r, index h p "perf_sec_by" ≠ some (.map r)) →
      groupAddr h p "perf_sec_by" (h.length + 2) = h.length + 2 ∧
      normalView env h p (h.length + 2) k = perfSecByDefaults.get k) ∧
    ((∀ r, index h p "creator_info" ≠ some (.map r)) →
      groupAddr h p "creator_info" (h.length + 3) = h.length + 3 ∧
      normalView env h p (h.length + 3) k = creatorInfoDefaults.get k) := by
  have a1 := groupAddr_lt h p "more_information" (h.length + 1) (hl _ (by simp [groupKeys]))
  have a2 := groupAddr_lt h p "perf_sec_by" (h.length + 2) (hl _ (by simp [groupKeys]))
  have a3 := groupAddr_lt h p "creator_info" (h.length + 3) (hl _ (by simp [groupKeys]))
  have fresh : ∀ (gk : String) (f : Nat), (∀ r, index h p gk ≠ some (.map r)) →
      groupAddr h p gk f = f := by
    intro gk f hr
    unfold groupAddr
    cases hx : index h p gk with
    | none => rfl
    | some v =>
      cases v with
      | map r =>
        cases r with
        | none => rfl
        | some a => exact absurd hx (hr _)
      | _ => rfl
  have o1 : index h (some (h.length + 1)) k = none := index_of_le _ _ _ (by omega)
  have o2 : index h (some (h.length + 2)) k = none := index_of_le _ _ _ (by omega)
  have o3 : index h (some (h.length + 3)) k = none := index_of_le _ _ _ (by omega)
  refine ⟨fun hr => ⟨fresh _ _ hr, ?_⟩, fun hr => ⟨fresh _ _ hr, ?_⟩,
    fun hr => ⟨fresh _ _ hr, ?_⟩⟩
  · have e1 := fresh _ (h.length + 1) hr
    have x2 : h.length + 1 ≠ groupAddr h p "perf_sec_by" (h.length + 2) := by omega
    have x3 : h.length + 1 ≠ groupAddr h p "creator_info" (h.length + 3) := by omega
    simp [normalView, layer, x2, x3, e1, scalarsView, o1]
  · have e2 := fresh _ (h.length + 2) hr
    have x1 : h.length + 2 ≠ groupAddr h p "more_information" (h.length + 1) := by omega
    have x3 : h.length + 2 ≠ groupAddr h p "creator_info" (h.length + 3) := by omega
    simp [normalView, layer, x1, x3, e2, scalarsView, o2]
  · have e3 := fresh _ (h.length + 3) hr
    have x1 : h.length + 3 ≠ groupAddr h p "more_information" (h.length + 1) := by omega
    have x2 : h.length + 3 ≠ groupAddr h p "perf_sec_by" (h.length + 2) := by omega
    simp [normalView, layer, x1, x2, e3, scalarsView, o3]

/-! ## Idempotence of the normalisation -/

theorem scalarDefaults_get_none {D : Type} (env : Env D) (h : Heap) (p : Option Nat)
    (k : String) : (scalarDefaults env h p).get k = none ↔ k ∉ scalarKeys := by
  simp only [scalarDefaults, GoMap.get, scalarKeys, List.mem_cons, List.mem_singleton,
    List.mem_nil_iff, or_false, not_or]
  constructor
  · intro hx
    refine ⟨?_, ?_, ?_, ?_, ?_, ?_, ?_, ?_⟩ <;> (intro e; simp [e] at hx)
  · rintro ⟨e1, e2, e3, e4, e5, e6, e7, e8⟩
    simp [e1, e2, e3, e4, e5, e6, e7, e8]

theorem layer_none (f : Nat → String → Option Value) (c a : Nat) (gk : String) (ds : GoMap)
    (b : Nat) (k : String) (hx : layer f c a gk ds b k = none) : f b k = none := by
  unfold layer at hx
  by_cases h1 : b = c ∧ k = gk
  · rw [if_pos h1] at hx; cases hx
  · rw [if_neg h1] at hx
    by_cases h2 : b = a
    · subst h2
      rw [if_pos rfl] at hx
      cases hf : f b k with
      | none => rfl
      | some v => rw [hf] at hx; cases hx
    · rw [if_neg h2] at hx; exact hx

theorem layer_at_none (f : Nat → String → Option Value) (c a : Nat) (gk : String) (ds : GoMap)
    (k : String) (hx : layer f c a gk ds a k = none) : ds.get k = none := by
  unfold layer at hx
  by_cases h1 : a = c ∧ k = gk
  · rw [if_pos h1] at hx; cases hx
  · rw [if_neg h1, if_pos rfl] at hx
    cases hf : f a k with
    | none => rw [hf] at hx; exact hx
    | some v => rw [hf] at hx; cases hx

theorem layer_id (f : Nat → String → Option Value) (c a : Nat) (gk : String) (ds : GoMap)
    (b : Nat) (k : String) (hb : b ≠ c) (hp : ∀ k, f a k = none → ds.get k = none) :
    layer f c a gk ds b k = f b k := by
  unfold layer
  rw [if_neg (fun hx => hb hx.1)]
  by_cases h2 : b = a
  · subst h2
    rw [if_pos rfl]
    cases hf : f b k with
    | none => exact hp k hf
    | some v => rfl
  · rw [if_neg h2]

theorem layer_copy (f : Nat → String → Option Value) (c a : Nat) (gk : String) (ds : GoMap)
    (k : String) (ha : c ≠ a) :
    layer f c a gk ds c k = if k = gk then some (.map (some a)) else f c k := by
  unfold layer
  by_cases h1 : k = gk <;> simp [h1, ha]

/-- The bag a well-formed input is normalised to is `Normalized`. -/
theorem normalized_of_normalize {D : Type} (env : Env D) (h h1 : Heap) (p : Option Nat)
    (c1 : Nat) (hl : groupsLive h p) (hs : Render.normalize env h p = some (h1, c1)) :
    Normalized h1 c1 := by
  have hn : groupsNonNil h p := by
    by_contra hc
    rw [← normalize_eq_none env, hs] at hc
    cases hc
  obtain ⟨h', e, len, hv⟩ := normalize_spec env h p hl hn
  rw [hs] at e
  injection e with e
  injection e with e1 e2
  subst e1 e2
  have a1 := groupAddr_lt h p "more_information" (h.length + 1) (hl _ (by simp [groupKeys]))
  have a2 := groupAddr_lt h p "perf_sec_by" (h.length + 2) (hl _ (by simp [groupKeys]))
  have a3 := groupAddr_lt h p "creator_info" (h.length + 3) (hl _ (by simp [groupKeys]))
  obtain ⟨g1, g2, g3⟩ := normalView_group env h p hl
  refine ⟨by omega, ?_, groupAddr h p "more_information" (h.length + 1),
    groupAddr h p "perf_sec_by" (h.length + 2), groupAddr h p "creator_info" (h.length + 3),
    by rw [hv, g1], by rw [hv, g2], by rw [hv, g3], by omega, by omega, by omega, ?_, ?_, ?_⟩
  · intro k hk
    rw [hv] at hk
    by_cases hg : k ∈ groupKeys
    · simp only [groupKeys, List.mem_cons, List.mem_singleton, List.mem_nil_iff,
        or_false] at hg
      rcases hg with rfl | rfl | rfl
      · rw [g1] at hk; cases hk
      · rw [g2] at hk; cases hk
      · rw [g3] at hk; cases hk
    · rw [normalView_top env h p hl k hg] at hk
      rw [← scalarDefaults_get_none env h p]
      cases hx : index h p k with
      | none => rw [hx] at hk; exact hk
      | some v => rw [hx] at hk; cases hk
  · intro k hk
    rw [hv] at hk
    exact layer_at_none _ _ _ _ _ _ (layer_none _ _ _ _ _ _ _ (layer_none _ _ _ _ _ _ _ hk))
  · intro k hk
    rw [hv] at hk
    exact layer_at_none _ _ _ _ _ _ (layer_none _ _ _ _ _ _ _ hk)
  · intro k hk
    rw [hv] at hk
    exact layer_at_none _ _ _ _ _ _ hk

theorem groupAddr_of_binding (h : Heap) (p : Option Nat) (gk : String) (f a : Nat)
    (hb : index h p gk = some (.map (some a))) : groupAddr h p gk f = a := by
  simp [groupAddr, hb]

/-- The normalisation of a `Normalized` bag returns, leaves every object of the
heap as it is, and its new copy has the bindings of the bag. -/
theorem normalize_of_normalized {D : Type} (env : Env D) (h : Heap) (c : Nat)
    (hN : Normalized h c) :
    ∃ h2, Render.normalize env h (some c) = some (h2, h.length) ∧
      (∀ k, index h2 (some h.length) k = index h (some c) k) ∧
      (∀ b k, b < h.length → index h2 (some b) k = index h (some b) k) := by
  obtain ⟨hc, hsc, a1, a2, a3, b1, b2, b3, l1, l2, l3, p1, p2, p3⟩ := hN
  have hl : groupsLive h (some c) := by
    intro gk hg
    simp only [groupKeys, List.mem_cons, List.mem_singleton, List.mem_nil_iff, or_false] at hg
    rcases hg with rfl | rfl | rfl
    · simp [indexD, b1, Value.live, l1]
    · simp [indexD, b2, Value.live, l2]
    · simp [indexD, b3, Value.live, l3]
  have hn : groupsNonNil h (some c) := by
    intro gk hg
    simp only [groupKeys, List.mem_cons, List.mem_singleton, List.mem_nil_iff, or_false] at hg
    rcases hg with rfl | rfl | rfl
    · rw [b1]; simp
    · rw [b2]; simp
    · rw [b3]; simp
  obtain ⟨h2, e, _, hv⟩ := normalize_spec env h (some c) hl hn
  have e1 := groupAddr_of_binding h (some c) "more_information" (h.length + 1) a1 b1
  have e2 := groupAddr_of_binding h (some c) "perf_sec_by" (h.length + 2) a2 b2
  have e3 := groupAddr_of_binding h (some c) "creator_info" (h.length + 3) a3 b3
  have s1 : ∀ b k, b ≠ h.length → scalarsView env h (some c) b k = index h (some b) k := by
    intro b k hb
    simp [scalarsView, hb]
  have q1 : ∀ k, scalarsView env h (some c) a1 k = none →
      moreInformationDefaults.get k = none := by
    intro k hk
    rw [s1 a1 k (by omega)] at hk
    exact p1 k hk
  have v1 : ∀ b k, b ≠ h.length →
      layer (scalarsView env h (some c)) h.length a1 "more_information"
        moreInformationDefaults b k = index h (some b) k := by
    intro b k hb
    rw [layer_id _ _ _ _ _ _ _ hb q1, s1 b k hb]
  have q2 : ∀ k, layer (scalarsView env h (some c)) h.length a1 "more_information"
      moreInformationDefaults a2 k = none → perfSecByDefaults.get k = none := by
    intro k hk
    rw [v1 a2 k (by omega)] at hk
    exact p2 k hk
  have v2 : ∀ b k, b ≠ h.length →
      layer (layer (scalarsView env h (some c)) h.length a1 "more_information"
        moreInformationDefaults) h.length a2 "perf_sec_by" perfSecByDefaults b k
          = index h (some b) k := by
    intro b k hb
    rw [layer_id _ _ _ _ _ _ _ hb q2, v1 b k hb]
  have q3 : ∀ k, layer (layer (scalarsView env h (some c)) h.length a1 "more_information"
      moreInformationDefaults) h.length a2 "perf_sec_by" perfSecByDefaults a3 k = none →
      creatorInfoDefaults.get k = none := by
    intro k hk
    rw [v2 a3 k (by omega)] at hk
    exact p3 k hk
  refine ⟨h2, e, ?_, ?_⟩
  · intro k
    rw [hv]
    unfold normalView
    rw [e1, e2, e3, layer_copy _ _ _ _ _ _ (by omega), layer_copy _ _ _ _ _ _ (by omega),
      layer_copy _ _ _ _ _ _ (by omega)]
    by_cases k3 : k = "creator_info"
    · rw [if_pos k3, k3, b3]
    · rw [if_neg k3]
      by_cases k2 : k = "perf_sec_by"
      · rw [if_pos k2, k2, b2]
      · rw [if_neg k2]
        by_cases k1 : k = "more_information"
        · rw [if_pos k1, k1, b1]
        · rw [if_neg k1]
          simp only [scalarsView, if_true]
          cases hx : index h (some c) k with
          | some v => rfl
          | none => exact (scalarDefaults_get_none env h (some c) k).mpr (hsc k hx)
  · intro b k hb
    rw [hv]
    unfold normalView
    rw [e1, e2, e3, layer_id _ _ _ _ _ _ _ (by omega) q3, v2 b k (by omega)]

/-- C8: normalising an already normalised bag changes nothing.  When the first
pass returns the bag `c1` in the heap `h1`, a second pass (with any clock and
random values) returns too; its copy `c2` has exactly the bindings of `c1`, the
same nested maps included, and every object of `h1`, so every nested field, is
as it was. -/
theorem C8_idempotent {D : Type} (env1 env2 : Env D) (h h1 : Heap) (params : Option Nat)
    (c1 : Nat) (hl : groupsLive h params)
    (hs : Render.normalize env1 h params = some (h1, c1)) :
    ∃ h2 c2, Render.normalize env2 h1 (some c1) = some (h2, c2) ∧
      (∀ k, index h2 (some c2) k = index h1 (some c1) k) ∧
      (∀ b k, b < h1.length → index h2 (some b) k = index h1 (some b) k) := by
  obtain ⟨h2, e, t, o⟩ := normalize_of_normalized env2 h1 c1
    (normalized_of_normalize env1 h h1 params c1 hl hs)
  exact ⟨h2, h1.length, e, t, o⟩

/-! ## The composed title -/

theorem composedTitle_eq {D : Type} (env : Env D) (h : Heap) (p : Option Nat) (n : Int)
    (t : String)
    (hcode : index h p "error_code" = some (.int n) ∨
      (index h p "error_code" = none ∧ n = 500))
    (htitle : index h p "title" = some (.str t) ∨
      (index h p "title" = none ∧ t = "Internal server error")) :
    composedTitle env h p = toString n ++ ": " ++ t := by
  obtain ⟨e1, e2⟩ := indexD_scalarsPre env h p
  unfold composedTitle
  rw [e1, e2]
  rcases hcode with hc | ⟨hc, rfl⟩ <;> rcases htitle with ht | ⟨ht, rfl⟩ <;>
    simp [hc, ht, fmtD, fmtS]

/-- C10: for a bag without `html_title` whose `error_code` is absent or an integer
and whose `title` is absent or a string, `html_title` becomes the decimal
`error_code` (supplied, else 500), then ": ", then the title (supplied, else
"Internal server error"), while `title` and `error_code` hold the supplied or
default values; a supplied `html_title` is kept.  This holds of the copy after
lines 180-211, which always exists, and of the bag of every completed
normalisation; the normalisation completes unless a group is the nil map. -/
theorem C10_html_title {D : Type} (env : Env D) (h : Heap) (params : Option Nat) :
    (∃ hs, Render.scalars env h params = some hs ∧
      (∀ n t,
        (index h params "error_code" = some (.int n) ∨
          (index h params "error_code" = none ∧ n = 500)) →
        (index h params "title" = some (.str t) ∨
          (index h params "title" = none ∧ t = "Internal server error")) →
        (index h params "html_title" = none →
          index hs (some h.length) "html_title" = some (.str (toString n ++ ": " ++ t))) ∧
        index hs (some h.length) "error_code" = some (.int n) ∧
        index hs (some h.length) "title" = some (.str t)) ∧
      (∀ v, index h params "html_title" = some v →
        index hs (some h.length) "html_title" = some v)) ∧
    (∀ h' c, Render.normalize env h params = some (h', c) →
      (∀ n t,
        (index h params "error_code" = some (.int n) ∨
          (index h params "error_code" = none ∧ n = 500)) →
        (index h params "title" = some (.str t) ∨
          (index h params "title" = none ∧ t = "Internal server error")) →
        (index h params "html_title" = none →
          index h' (some c) "html_title" = some (.str (toString n ++ ": " ++ t))) ∧
        index h' (some c) "error_code" = some (.int n) ∧
        index h' (some c) "title" = some (.str t)) ∧
      (∀ v, index h params "html_title" = some v →
        index h' (some c) "html_title" = some v)) ∧
    (groupsNonNil h params → ∃ h', Render.normalize env h params = some (h', h.length)) := by
  have view : ∀ n t,
      (index h params "error_code" = some (.int n) ∨
        (index h params "error_code" = none ∧ n = 500)) →
      (index h params "title" = some (.str t) ∨
        (index h params "title" = none ∧ t = "Internal server error")) →
      (index h params "html_title" = none →
        scalarsView env h params h.length "html_title"
          = some (.str (toString n ++ ": " ++ t))) ∧
      scalarsView env h params h.length "error_code" = some (.int n) ∧
      scalarsView env h params h.length "title" = some (.str t) := by
    intro n t hcode htitle
    have ct := composedTitle_eq env h params n t hcode htitle
    refine ⟨?_, ?_, ?_⟩
    · intro hno
      simp [scalarsView, hno, scalarDefaults, GoMap.get, ct]
    · rcases hcode with hc | ⟨hc, rfl⟩ <;> simp [scalarsView, hc, scalarDefaults, GoMap.get]
    · rcases htitle with ht | ⟨ht, rfl⟩ <;> simp [scalarsView, ht, scalarDefaults, GoMap.get]
  have kept : ∀ v, index h params "html_title" = some v →
      scalarsView env h params h.length "html_title" = some v := by
    intro v hv
    simp [scalarsView, hv]
  refine ⟨⟨scalarsHeap env h params, scalars_eq env h params, ?_, ?_⟩, ?_, ?_⟩
  · intro n t hcode htitle
    simp only [index_scalarsHeap]
    exact view n t hcode htitle
  · intro v hv
    rw [index_scalarsHeap]
    exact kept v hv
  · intro h' c hs
    obtain ⟨rfl, _, _, _, h5⟩ := normalize_frame env h h' params c hs
    refine ⟨?_, ?_⟩
    · intro n t hcode htitle
      rw [h5 "html_title" (by decide) (by decide), h5 "error_code" (by decide) (by decide),
        h5 "title" (by decide) (by decide)]
      exact view n t hcode htitle
    · intro v hv
      rw [h5 "html_title" (by decide) (by decide)]
      exact kept v hv
  · intro hn
    cases hx : Render.normalize env h params with
    | none => exact absurd hn ((normalize_eq_none env h params).mp hx)
    | some r =>
      obtain ⟨h', c⟩ := r
      obtain ⟨rfl, _⟩ := normalize_frame env h h' params c hx
      exact ⟨h', rfl⟩

theorem C10_html_title_witness :
    (∃ h', Render.normalize sampleEnv
        [[("title", .str "Custom Error"), ("error_code", .int 404)]] (some 0) = some (h', 1) ∧
      index h' (some 1) "html_title" = some (.str "404: Custom Error")) ∧
    (∃ h', Render.normalize sampleEnv [] none = some (h', 0) ∧
      index h' (some 0) "html_title" = some (.str "500: Internal server error")) := by
  constructor
  · obtain ⟨h', hn⟩ := (C10_html_title sampleEnv
      [[("title", .str "Custom Error"), ("error_code", .int 404)]] (some 0)).2.2 (by decide)
    exact ⟨h', hn, ((C10_html_title sampleEnv _ (some 0)).2.1 h' 1 hn).1 404 "Custom Error"
      (Or.inl (by decide)) (Or.inl (by decide)) |>.1 (by decide)⟩
  · obtain ⟨h', hn⟩ := (C10_html_title sampleEnv [] none).2.2 (by decide)
    exact ⟨h', hn, ((C10_html_title sampleEnv [] none).2.1 h' 0 hn).1 500
      "Internal server error" (Or.inr ⟨by decide, rfl⟩) (Or.inr ⟨by decide, rfl⟩)
      |>.1 (by decide)⟩

/-! ## Values of the wrong type, nil groups and shared groups -/

/-- C5, as stated, fails: a `title` that is not a string is not treated as absent.
The normalisation of the bag with `title` bound to the integer 42 returns, and
the normalised bag binds `title` to 42, not to the default title. -/
theorem C5_refuted_by_integer_title :
    ∃ h', Render.normalize sampleEnv [[("title", .int 42)]] (some 0) = some (h', 1) ∧
      index h' (some 1) "title" = some (.int 42) ∧
      index h' (some 1) "title" ≠ some (.str "Internal server error") := by
  obtain ⟨h', hn, _, hv⟩ := normalize_spec sampleEnv [[("title", .int 42)]] (some 0)
    (by decide) (by decide)
  have e : index h' (some 1) "title" = some (.int 42) := by
    obtain ⟨_, _, _, h4, _⟩ := normalize_frame sampleEnv _ h' (some 0) _ hn
    exact h4 "title" (.int 42) (by decide) (by decide)
  refine ⟨h', hn, e, ?_⟩
  rw [e]
  decide

/-- C5, amended.  On a bag whose groups are live maps, none of them nil, the
normalisation returns and a value of the wrong type is treated as absent only
where the code asserts a type: an option group that is not a map is replaced by
a new map that holds exactly the defaults of the group; in a status group a
field that is not a string gives the default of the field, and a status group
that is not a map binds nothing; an `error_source` that is not a string reads as
the empty string.  Everywhere else the supplied value is kept whatever its type:
a top-level entry outside the three option groups, and a field of an option
group that is a map. -/
theorem C5_wrong_type {D : Type} (env : Env D) (h : Heap) (params : Option Nat)
    (hl : groupsLive h params) (hn : groupsNonNil h params) :
    ∃ h', Render.normalize env h params = some (h', h.length) ∧
      (∀ k v, k ∉ groupKeys → index h params k = some v →
        index h' (some h.length) k = some v) ∧
      (∀ gk ∈ groupKeys, ∀ a k v, index h params gk = some (.map (some a)) →
        index h (some a) k = some v →
        index h' (some h.length) gk = some (.map (some a)) ∧ index h' (some a) k = some v) ∧
      ((∀ r, index h params "more_information" ≠ some (.map r)) →
        index h' (some h.length) "more_information" = some (.map (some (h.length + 1))) ∧
        ∀ k, index h' (some (h.length + 1)) k = moreInformationDefaults.get k) ∧
      ((∀ r, index h params "perf_sec_by" ≠ some (.map r)) →
        index h' (some h.length) "perf_sec_by" = some (.map (some (h.length + 2))) ∧
        ∀ k, index h' (some (h.length + 2)) k = perfSecByDefaults.get k) ∧
      ((∀ r, index h params "creator_info" ≠ some (.map r)) →
        index h' (some h.length) "creator_info" = some (.map (some (h.length + 3))) ∧
        ∀ k, index h' (some (h.length + 3)) k = creatorInfoDefaults.get k) ∧
      (∀ itemID errorSource,
        ((∀ a, index h' (some h.length) (itemID ++ "_status") ≠ some (.map (some a))) →
          ∀ key, (statusItem h' (some h.length) itemID).get key = none) ∧
        ((∀ s, (statusItem h' (some h.length) itemID).get "status" ≠ some (.str s)) →
          (prepareStatusInfo h' (some h.length) itemID errorSource).Status = "ok") ∧
        ((∀ s, (statusItem h' (some h.length) itemID).get "location" ≠ some (.str s)) →
          (prepareStatusInfo h' (some h.length) itemID errorSource).Location =
            (prepareStatusInfo h' (some h.length) itemID errorSource).DefaultLocation) ∧
        ((∀ s, (statusItem h' (some h.length) itemID).get "name" ≠ some (.str s)) →
          (prepareStatusInfo h' (some h.length) itemID errorSource).Name =
            (prepareStatusInfo h' (some h.length) itemID errorSource).DefaultName) ∧
        ((∀ s, (statusItem h' (some h.length) itemID).get "status_text" ≠ some (.str s)) →
          (prepareStatusInfo h' (some h.length) itemID errorSource).StatusText =
            if (prepareStatusInfo h' (some h.length) itemID errorSource).Status = "ok"
            then "Working" else "Error") ∧
        ((∀ s, (statusItem h' (some h.length) itemID).get "status_text_color"
            ≠ some (.str s)) →
          (prepareStatusInfo h' (some h.length) itemID errorSource).StatusTextColor =
            if (prepareStatusInfo h' (some h.length) itemID errorSource).Status = "ok"
            then "#9bca3e"
            else if (prepareStatusInfo h' (some h.length) itemID errorSource).Status = "error"
            then "#bd2426" else "")) ∧
      ((∀ s, index h params "error_source" ≠ some (.str s)) →
        Render.errorSource h' (some h.length) = "") := by
  obtain ⟨h', e, _, hv⟩ := normalize_spec env h params hl hn
  obtain ⟨_, _, f3, f4, _⟩ := normalize_frame env h h' params _ e
  obtain ⟨g1, g2, g3⟩ := normalView_group env h params hl
  refine ⟨h', e, ?_, ?_, ?_, ?_, ?_, ?_, ?_⟩
  · intro k v hk hx
    exact f4 k v hx hk
  · intro gk hg a k v hb hx
    refine ⟨?_, f3 a k v hx⟩
    simp only [groupKeys, List.mem_cons, List.mem_singleton, List.mem_nil_iff, or_false] at hg
    rcases hg with rfl | rfl | rfl
    · rw [hv, g1, groupAddr_of_binding _ _ _ _ _ hb]
    · rw [hv, g2, groupAddr_of_binding _ _ _ _ _ hb]
    · rw [hv, g3, groupAddr_of_binding _ _ _ _ _ hb]
  · intro hr
    refine ⟨?_, fun k => ?_⟩
    · rw [hv, g1, ((normalView_fresh env h params hl "").1 hr).1]
    · rw [hv]; exact ((normalView_fresh env h params hl k).1 hr).2
  · intro hr
    refine ⟨?_, fun k => ?_⟩
    · rw [hv, g2, ((normalView_fresh env h params hl "").2.1 hr).1]
    · rw [hv]; exact ((normalView_fresh env h params hl k).2.1 hr).2
  · intro hr
    refine ⟨?_, fun k => ?_⟩
    · rw [hv, g3, ((normalView_fresh env h params hl "").2.2 hr).1]
    · rw [hv]; exact ((normalView_fresh env h params hl k).2.2 hr).2
  · intro itemID errorSource
    refine ⟨?_, ?_, ?_, ?_, ?_, ?_⟩
    · intro hg key
      rw [statusItem_of_not_map _ _ _ hg]; rfl
    · intro hs
      simp [prepareStatusInfo, getMapValue_default _ _ _ hs]
    · intro hs
      simp [prepareStatusInfo, getMapValue_default _ _ _ hs]
    · intro hs
      simp [prepareStatusInfo, getMapValue_default _ _ _ hs]
    · intro hs
      simp [prepareStatusInfo, getMapValue_default _ _ _ hs]
    · intro hs
      simp [prepareStatusInfo, getMapValue_default _ _ _ hs]
  · intro hs
    rw [Render.errorSource, error_source_of_normalize env h h' params _ e]
    cases hx : index h params "error_source" with
    | none => rfl
    | some v =>
      cases v with
      | str s => exact absurd hx (hs s)
      | _ => rfl

theorem C5_wrong_type_witness :
    ∃ h', Render.normalize sampleEnv
        [[("title", .int 42), ("more_information", .str "none"),
          ("creator_info", .map (some 1))], [("hidden", .str "yes")]] (some 0)
        = some (h', 2) ∧
      index h' (some 2) "title" = some (.int 42) ∧
      index h' (some 2) "more_information" = some (.map (some 3)) ∧
      index h' (some 3) "link" = some (.str "https://www.cloudflare.com/") ∧
      index h' (some 1) "hidden" = some (.str "yes") := by
  obtain ⟨h', e, t1, t2, t3, _⟩ := C5_wrong_type sampleEnv
    [[("title", .int 42), ("more_information", .str "none"),
      ("creator_info", .map (some 1))], [("hidden", .str "yes")]] (some 0)
    (by decide) (by decide)
  refine ⟨h', e, t1 "title" (.int 42) (by decide) (by decide), ?_, ?_,
    (t2 "creator_info" (by decide) 1 "hidden" (.str "yes") (by decide) (by decide)).2⟩
  · exact (t3 (by
      intro r
      have x : index [[("title", Value.int 42), ("more_information", .str "none"),
          ("creator_info", .map (some 1))], [("hidden", .str "yes")]] (some 0)
          "more_information" = some (.str "none") := by decide
      rw [x]; intro hx; cases hx)).1
  · exact (t3 (by
      intro r
      have x : index [[("title", Value.int 42), ("more_information", .str "none"),
          ("creator_info", .map (some 1))], [("hidden", .str "yes")]] (some 0)
          "more_information" = some (.str "none") := by decide
      rw [x]; intro hx; cases hx)).2 "link"

/-- C6, evaluated at the failing input: the bag that binds `perf_sec_by` to the
nil `map[string]interface{}`.  The assignment of line 242 goes into a nil map and
`Render` panics: no bag is handed to the template. -/
theorem C6_nil_group_panics (env : Env TemplateData) (opts : Option RenderOptions) :
    Render.normalize env [[("perf_sec_by", .map none)]] (some 0) = none ∧
    Render env [[("perf_sec_by", .map none)]] (some 0) opts = none := by
  have e : Render.normalize env [[("perf_sec_by", .map none)]] (some 0) = none :=
    (normalize_eq_none env _ _).mpr (by decide)
  exact ⟨e, (render_eq_none env _ _ opts).mpr e⟩

/-- C7, evaluated at the failing input: a bag that binds `more_information` and
`perf_sec_by` to one and the same map `{link: "https://example.com/"}` (object
1).  The map has no `text`; the block of `more_information` writes its own
default into the shared map, so `perf_sec_by.text` ends as "cloudflare.com" and
not as the default "Cloudflare" of `perf_sec_by`. -/
theorem C7_shared_group_map (env : Env TemplateData) :
    ∃ h', Render.normalize env
        [[("more_information", .map (some 1)), ("perf_sec_by", .map (some 1))],
         [("link", .str "https://example.com/")]] (some 0) = some (h', 2) ∧
      index [[("more_information", .map (some 1)), ("perf_sec_by", .map (some 1))],
         [("link", .str "https://example.com/")]] (some 1) "text" = none ∧
      index h' (some 2) "perf_sec_by" = some (.map (some 1)) ∧
      index h' (some 1) "text" = some (.str "cloudflare.com") ∧
      perfSecByDefaults.get "text" = some (.str "Cloudflare") := by
  obtain ⟨h', hn, _, hv⟩ := normalize_spec env
    [[("more_information", .map (some 1)), ("perf_sec_by", .map (some 1))],
     [("link", .str "https://example.com/")]] (some 0) (by decide) (by decide)
  refine ⟨h', hn, by decide, ?_, ?_, by decide⟩
  · rw [hv]; simp [normalView, layer, groupAddr, scalarsView, index, Heap.read, GoMap.get,
      moreInformationDefaults, perfSecByDefaults, creatorInfoDefaults]
  · rw [hv]; simp [normalView, layer, groupAddr, scalarsView, index, Heap.read, GoMap.get,
      moreInformationDefaults, perfSecByDefaults, creatorInfoDefaults]

theorem C8_idempotent_witness :
    ∃ h2 c2, Render.normalize sampleEnv sampleNormalized (some 1) = some (h2, c2) ∧
      (∀ k, index h2 (some c2) k = index sampleNormalized (some 1) k) ∧
      (∀ b k, b < sampleNormalized.length →
        index h2 (some b) k = index sampleNormalized (some b) k) :=
  C8_idempotent sampleEnv sampleEnv [[("title", .str "Custom Error")]] sampleNormalized
    (some 0) 1 (by decide) (by decide)

/-! ## The normalised bag of an input without nil or shared groups -/

/-- Without nil or shared groups the normalisation does what the
specification says.  For a bag whose three groups are live, not nil and not one
shared map: the normalisation returns; every top-level entry outside the groups
is the supplied value or else its default, so that all of `scalarKeys` are
bound; each group key is bound to a map, the caller's own when it supplied one;
and in that map every supplied field keeps its value while a missing field
takes the default of its group. -/
theorem normalize_merge {D : Type} (env : Env D) (h : Heap) (p : Option Nat)
    (hl : groupsLive h p) (hn : groupsNonNil h p) (hd : groupsDistinct h p) :
    ∃ h', Render.normalize env h p = some (h', h.length) ∧
      (∀ k, k ∉ groupKeys → index h' (some h.length) k =
        match index h p k with
        | some v => some v
        | none => (scalarDefaults env h p).get k) ∧
      (∀ k ∈ scalarKeys, (index h' (some h.length) k).isSome) ∧
      (index h' (some h.length) "more_information"
          = some (.map (some (groupAddr h p "more_information" (h.length + 1)))) ∧
        ∀ k, index h' (some (groupAddr h p "more_information" (h.length + 1))) k =
          match index h (some (groupAddr h p "more_information" (h.length + 1))) k with
          | some v => some v
          | none => moreInformationDefaults.get k) ∧
      (index h' (some h.length) "perf_sec_by"
          = some (.map (some (groupAddr h p "perf_sec_by" (h.length + 2)))) ∧
        ∀ k, index h' (some (groupAddr h p "perf_sec_by" (h.length + 2))) k =
          match index h (some (groupAddr h p "perf_sec_by" (h.length + 2))) k with
          | some v => some v
          | none => perfSecByDefaults.get k) ∧
      (index h' (some h.length) "creator_info"
          = some (.map (some (groupAddr h p "creator_info" (h.length + 3)))) ∧
        ∀ k, index h' (some (groupAddr h p "creator_info" (h.length + 3))) k =
          match index h (some (groupAddr h p "creator_info" (h.length + 3))) k with
          | some v => some v
          | none => creatorInfoDefaults.get k) := by
  obtain ⟨h', e, _, hv⟩ := normalize_spec env h p hl hn
  obtain ⟨g1, g2, g3⟩ := normalView_group env h p hl
  obtain ⟨d12, d13, d23⟩ := hd
  have a1 := groupAddr_lt h p "more_information" (h.length + 1) (hl _ (by simp [groupKeys]))
  have a2 := groupAddr_lt h p "perf_sec_by" (h.length + 2) (hl _ (by simp [groupKeys]))
  have a3 := groupAddr_lt h p "creator_info" (h.length + 3) (hl _ (by simp [groupKeys]))
  have x1 : groupAddr h p "more_information" (h.length + 1) ≠ h.length := by omega
  have x2 : groupAddr h p "perf_sec_by" (h.length + 2) ≠ h.length := by omega
  have x3 : groupAddr h p "creator_info" (h.length + 3) ≠ h.length := by omega
  refine ⟨h', e, ?_, ?_, ⟨by rw [hv, g1], ?_⟩, ⟨by rw [hv, g2], ?_⟩, ⟨by rw [hv, g3], ?_⟩⟩
  · intro k hk
    rw [hv, normalView_top env h p hl k hk]
  · intro k hk
    have hg : k ∉ groupKeys := by
      revert k; decide
    rw [hv, normalView_top env h p hl k hg]
    cases hx : index h p k with
    | some v => rfl
    | none =>
      have := (scalarDefaults_get_none env h p k).not.mpr (not_not.mpr hk)
      cases hy : (scalarDefaults env h p).get k with
      | none => exact absurd hy this
      | some v => rfl
  · intro k
    rw [hv]
    simp [normalView, layer, x1, d12, d13, scalarsView]
  · intro k
    rw [hv]
    simp [normalView, layer, x2, Ne.symm d12, d23, scalarsView]
  · intro k
    rw [hv]
    simp [normalView, layer, x3, Ne.symm d13, Ne.symm d23, scalarsView]

theorem normalize_merge_example :
    ∃ h', Render.normalize sampleEnv
        [[("more_information", .map (some 1))], [("for", .str "no information")]] (some 0)
        = some (h', 2) ∧
      index h' (some 2) "more_information" = some (.map (some 1)) ∧
      index h' (some 1) "for" = some (.str "no information") ∧
      index h' (some 1) "hidden" = some (.bool false) ∧
      index h' (some 1) "link" = some (.str "https://www.cloudflare.com/") ∧
      index h' (some 1) "text" = some (.str "cloudflare.com") := by
  obtain ⟨h', e, _, _, ⟨b, f⟩, _⟩ := normalize_merge sampleEnv
    [[("more_information", .map (some 1))], [("for", .str "no information")]] (some 0)
    (by decide) (by decide) (by decide)
  exact ⟨h', e, b, f "for", f "hidden", f "link", f "text"⟩

/-! ## Options and the result of `Render` -/

/-- C14: for every bag, `Render` with absent options builds the same template
data and returns the same result as `Render` with the options
`{AllowHTML: true, UseCDN: true}`, for the same clock, random values and
template execution. -/
theorem C14_nil_options (env : Env TemplateData) (h : Heap) (params : Option Nat) :
    Render.data env h params none
      = Render.data env h params (some { AllowHTML := true, UseCDN := true }) ∧
    Render env h params none
      = Render env h params (some { AllowHTML := true, UseCDN := true }) := by
  have e : Render.data env h params none
      = Render.data env h params (some { AllowHTML := true, UseCDN := true }) := rfl
  refine ⟨e, ?_⟩
  unfold Render
  rw [e]

/-- C13: `Render` returns an error exactly when the execution of the template
fails.  Whenever the steps before the template complete with the data `d`,
`Render` returns: on a failure `e` of the execution the empty string and the
error with message "template execution failed: " followed by `e` that wraps
`e`; on success the output of the execution and no error.  Every return of
`Render` is of this kind, so no step before the execution contributes an error,
and those steps do complete for every bag without a nil group. -/
theorem C13_error_iff_template_fails (env : Env TemplateData) (h : Heap)
    (params : Option Nat) (opts : Option RenderOptions) :
    (∀ h' d, Render.data env h params opts = some (h', d) →
      (∀ e, env.execute h' d = .error e →
        Render env h params opts
          = some (h', "", some (.mk ("template execution failed: " ++ e)
              (some (.mk e none))))) ∧
      (∀ out, env.execute h' d = .ok out →
        Render env h params opts = some (h', out, none))) ∧
    (∀ h' out err, Render env h params opts = some (h', out, err) →
      ∃ d, Render.data env h params opts = some (h', d) ∧
        ((∃ e, env.execute h' d = .error e ∧ out = "" ∧
            err = some (.mk ("template execution failed: " ++ e) (some (.mk e none)))) ∨
          (env.execute h' d = .ok out ∧ err = none)) ∧
        ((∃ g, err = some g) ↔ ∃ e, env.execute h' d = .error e)) ∧
    (groupsNonNil h params → ∃ h' d, Render.data env h params opts = some (h', d)) := by
  refine ⟨?_, ?_, ?_⟩
  · intro h' d hd
    constructor
    · intro e he
      simp [Render, hd, bind, Option.bind, he, pure]
    · intro out ho
      simp [Render, hd, bind, Option.bind, ho, pure]
  · intro h' out err hr
    cases hd : Render.data env h params opts with
    | none => simp [Render, hd, bind, Option.bind] at hr
    | some r =>
      obtain ⟨h1, d⟩ := r
      cases hx : env.execute h1 d with
      | error e =>
        simp only [Render, hd, bind, Option.bind, hx, pure, Option.some.injEq,
          Prod.mk.injEq] at hr
        obtain ⟨rfl, rfl, rfl⟩ := hr
        refine ⟨d, rfl, Or.inl ⟨e, hx, rfl, rfl⟩, ?_⟩
        constructor
        · intro _; exact ⟨e, hx⟩
        · intro _; exact ⟨_, rfl⟩
      | ok o =>
        simp only [Render, hd, bind, Option.bind, hx, pure, Option.some.injEq,
          Prod.mk.injEq] at hr
        obtain ⟨rfl, rfl, rfl⟩ := hr
        refine ⟨d, rfl, Or.inr ⟨hx, rfl⟩, ?_⟩
        constructor
        · rintro ⟨g, hg⟩; cases hg
        · rintro ⟨e, he⟩; rw [hx] at he; cases he
  · intro hn
    cases hx : Render.normalize env h params with
    | none => exact absurd hn ((normalize_eq_none env h params).mp hx)
    | some r =>
      obtain ⟨d, hd, _⟩ := data_of_normalize env h r.1 params opts r.2 hx
      exact ⟨r.1, d, hd⟩

/-- C15: the asset base handed to the template is "https://cloudflare.com" with
`resources_use_cdn` true when `UseCDN` is set, and the empty prefix with
`resources_use_cdn` false when it is not, so that the stylesheet link is then the
root-relative `/cdn-cgi/styles/main.css`; and two calls that differ only in
`UseCDN` end in the same heap, one of them returns its data exactly when the
other does, and their data agree on every entry other than `resources_use_cdn`
and `resources_cdn`. -/
theorem C15_use_cdn {D : Type} (env : Env D) (h : Heap) (params : Option Nat) (allow : Bool) :
    (∀ u h' d, Render.data env h params (some { AllowHTML := allow, UseCDN := u })
        = some (h', d) →
      d.resources_use_cdn = u ∧
      d.resources_cdn = (if u then "https://cloudflare.com" else "") ∧
      (u = false → stylesheetHref d = "/cdn-cgi/styles/main.css")) ∧
    (∀ h' d, Render.data env h params (some { AllowHTML := allow, UseCDN := true })
        = some (h', d) →
      ∃ d', Render.data env h params (some { AllowHTML := allow, UseCDN := false })
          = some (h', d') ∧
        d'.params = d.params ∧ d'.browser_status = d.browser_status ∧
        d'.cloudflare_status = d.cloudflare_status ∧ d'.host_status = d.host_status ∧
        d'.allow_html = d.allow_html) ∧
    (∀ h' d', Render.data env h params (some { AllowHTML := allow, UseCDN := false })
        = some (h', d') →
      ∃ d, Render.data env h params (some { AllowHTML := allow, UseCDN := true })
          = some (h', d) ∧
        d'.params = d.params ∧ d'.browser_status = d.browser_status ∧
        d'.cloudflare_status = d.cloudflare_status ∧ d'.host_status = d.host_status ∧
        d'.allow_html = d.allow_html) := by
  refine ⟨?_, ?_, ?_⟩
  · intro u h' d hd
    rw [data_eq_some] at hd
    obtain ⟨_, h2, h3, _⟩ := hd
    simp only [Option.getD] at h2 h3
    refine ⟨h2, h3, ?_⟩
    intro hu
    subst hu
    simp [stylesheetHref, h3]
  · intro h' d hd
    rw [data_eq_some] at hd
    obtain ⟨hn, _, _, h4, h5, h6, h7⟩ := hd
    obtain ⟨d', hd', hp⟩ := data_of_normalize env h h' params
      (some { AllowHTML := allow, UseCDN := false }) d.params hn
    refine ⟨d', hd', hp, ?_⟩
    rw [data_eq_some] at hd'
    obtain ⟨_, _, _, g4, g5, g6, g7⟩ := hd'
    rw [hp] at g5 g6 g7
    exact ⟨g5.trans h5.symm, g6.trans h6.symm, g7.trans h7.symm, g4.trans h4.symm⟩
  · intro h' d' hd'
    rw [data_eq_some] at hd'
    obtain ⟨hn, _, _, g4, g5, g6, g7⟩ := hd'
    obtain ⟨d, hd, hp⟩ := data_of_normalize env h h' params
      (some { AllowHTML := allow, UseCDN := true }) d'.params hn
    refine ⟨d, hd, hp.symm, ?_⟩
    rw [data_eq_some] at hd
    obtain ⟨_, _, _, h4, h5, h6, h7⟩ := hd
    rw [hp] at h5 h6 h7
    exact ⟨g5.trans h5.symm, g6.trans h6.symm, g7.trans h7.symm, g4.trans h4.symm⟩

theorem C15_use_cdn_witness :
    ∃ h' d, Render.data sampleEnv [] none (some { AllowHTML := true, UseCDN := false })
        = some (h', d) ∧
      d.resources_use_cdn = false ∧ d.resources_cdn = "" ∧
      stylesheetHref d = "/cdn-cgi/styles/main.css" := by
  obtain ⟨h', hn, _⟩ := normalize_spec sampleEnv [] none (by decide) (by decide)
  obtain ⟨d, hd, _⟩ := data_of_normalize sampleEnv [] h' none
    (some { AllowHTML := true, UseCDN := false }) 0 hn
  obtain ⟨t1, t2, t3⟩ := (C15_use_cdn sampleEnv [] none true).1 false h' d hd
  exact ⟨h', d, hd, t1, t2, t3 rfl⟩

/-! ## Fields of a status group -/

theorem prepareStatusInfo_icon (h : Heap) (params : Option Nat) (itemID errorSource : String) :
    (prepareStatusInfo h params itemID errorSource).Icon =
      (if itemID = "browser" then "browser" else if itemID = "cloudflare" then "cloud"
       else if itemID = "host" then "server" else "") ∧
    (prepareStatusInfo h params itemID errorSource).DefaultLocation =
      (if itemID = "browser" then "You" else if itemID = "cloudflare" then "San Francisco"
       else if itemID = "host" then "Website" else "") ∧
    (prepareStatusInfo h params itemID errorSource).DefaultName =
      (if itemID = "browser" then "Browser" else if itemID = "cloudflare" then "Cloudflare"
       else if itemID = "host" then "Host" else "") := by
  unfold prepareStatusInfo
  by_cases h1 : itemID = "browser"
  · simp [h1]
  · by_cases h2 : itemID = "cloudflare"
    · simp [h1, h2]
    · by_cases h3 : itemID = "host" <;> simp [h1, h2, h3]

/-- C17: when the `<id>_status` group is a map, each of `status`, `location` and
`name` that the group supplies as a string is passed through verbatim to
`Status`, `Location` and `Name`, whatever the string; and `Icon`,
`DefaultLocation` and `DefaultName` are those of the fixed table of the
component id, whatever the bag holds. -/
theorem C17_pass_through (h : Heap) (params : Option Nat) (itemID errorSource : String)
    (a : Nat) (hg : index h params (itemID ++ "_status") = some (.map (some a))) :
    (∀ s, index h (some a) "status" = some (.str s) →
      (prepareStatusInfo h params itemID errorSource).Status = s) ∧
    (∀ s, index h (some a) "location" = some (.str s) →
      (prepareStatusInfo h params itemID errorSource).Location = s) ∧
    (∀ s, index h (some a) "name" = some (.str s) →
      (prepareStatusInfo h params itemID errorSource).Name = s) ∧
    (prepareStatusInfo h params itemID errorSource).Icon =
      (if itemID = "browser" then "browser" else if itemID = "cloudflare" then "cloud"
       else if itemID = "host" then "server" else "") ∧
    (prepareStatusInfo h params itemID errorSource).DefaultLocation =
      (if itemID = "browser" then "You" else if itemID = "cloudflare" then "San Francisco"
       else if itemID = "host" then "Website" else "") ∧
    (prepareStatusInfo h params itemID errorSource).DefaultName =
      (if itemID = "browser" then "Browser" else if itemID = "cloudflare" then "Cloudflare"
       else if itemID = "host" then "Host" else "") := by
  have hi := statusItem_of_map h params itemID a hg
  obtain ⟨i1, i2, i3⟩ := prepareStatusInfo_icon h params itemID errorSource
  refine ⟨?_, ?_, ?_, i1, i2, i3⟩
  · intro s hs
    have : getMapValue (h.read a) "status" "ok" = s := getMapValue_str _ _ _ _ hs
    simp [prepareStatusInfo, hi, this]
  · intro s hs
    have : ∀ d, getMapValue (h.read a) "location" d = s := fun d => getMapValue_str _ _ _ _ hs
    simp [prepareStatusInfo, hi, this]
  · intro s hs
    have : ∀ d, getMapValue (h.read a) "name" d = s := fun d => getMapValue_str _ _ _ _ hs
    simp [prepareStatusInfo, hi, this]

theorem C17_pass_through_witness :
    (prepareStatusInfo
        [[("browser_status", .map (some 1))],
         [("status", .str "error"), ("status_text", .str "Out of Memory"),
          ("location", .str "Local")]]
        (some 0) "browser" "browser").Status = "error" ∧
    (prepareStatusInfo
        [[("browser_status", .map (some 1))],
         [("status", .str "error"), ("status_text", .str "Out of Memory"),
          ("location", .str "Local")]]
        (some 0) "browser" "browser").Location = "Local" ∧
    (prepareStatusInfo
        [[("browser_status", .map (some 1))],
         [("status", .str "error"), ("status_text", .str "Out of Memory"),
          ("location", .str "Local")]]
        (some 0) "browser" "browser").Icon = "browser" ∧
    prepareStatusInfo
        [[("browser_status", .map (some 1))],
         [("status", .str "error"), ("status_text", .str "Out of Memory"),
          ("location", .str "Local")]]
        (some 0) "browser" "browser" =
      { Icon := "browser", DefaultLocation := "You", DefaultName := "Browser",
        Location := "Local", Name := "Browser", Status := "error",
        StatusText := "Out of Memory", StatusTextColor := "#bd2426",
        ErrorClass := "cf-error-source" } :=
  ⟨(C17_pass_through _ (some 0) "browser" "browser" 1 (by decide)).1 "error" (by decide),
   (C17_pass_through _ (some 0) "browser" "browser" 1 (by decide)).2.1 "Local" (by decide),
   (C17_pass_through _ (some 0) "browser" "browser" 1 (by decide)).2.2.2.1,
   by decide⟩

theorem prepareStatusInfo_congr (h1 h2 : Heap) (p1 p2 : Option Nat)
    (itemID errorSource : String)
    (hs : getMapValue (statusItem h1 p1 itemID) "status" "ok"
      = getMapValue (statusItem h2 p2 itemID) "status" "ok")
    (hl : ∀ d, getMapValue (statusItem h1 p1 itemID) "location" d
      = getMapValue (statusItem h2 p2 itemID) "location" d)
    (hn : ∀ d, getMapValue (statusItem h1 p1 itemID) "name" d
      = getMapValue (statusItem h2 p2 itemID) "name" d)
    (ht : getMapValue (statusItem h1 p1 itemID) "status_text" ""
      = getMapValue (statusItem h2 p2 itemID) "status_text" "")
    (hc : getMapValue (statusItem h1 p1 itemID) "status_text_color" ""
      = getMapValue (statusItem h2 p2 itemID) "status_text_color" "") :
    prepareStatusInfo h1 p1 itemID errorSource = prepareStatusInfo h2 p2 itemID errorSource := by
  simp only [prepareStatusInfo, hs, hl, hn, ht, hc]

theorem getMapValue_congr (m1 m2 : GoMap) (key d : String) (hk : m1.get key = m2.get key) :
    getMapValue m1 key d = getMapValue m2 key d := by
  simp [getMapValue, hk]

/-- C20: a `status_text` or `status_text_color` supplied as the empty string is
treated exactly as if it were not supplied: two groups that differ only in that
the first binds `status_text` (or `status_text_color`) to the empty string where
the second does not bind it give the same record, whose `StatusText` is
"Working" or "Error" by the status and whose `StatusTextColor` is the default of
the status.  A `status`, `location` or `name` supplied as the empty string is
kept as the empty string. -/
theorem C20_empty_strings (h : Heap) (params : Option Nat) (itemID errorSource : String) :
    (∀ (h2 : Heap) (p2 : Option Nat) (key : String),
      key = "status_text" ∨ key = "status_text_color" →
      (statusItem h params itemID).get key = some (.str "") →
      (statusItem h2 p2 itemID).get key = none →
      (∀ k, k ≠ key → (statusItem h params itemID).get k = (statusItem h2 p2 itemID).get k) →
      prepareStatusInfo h params itemID errorSource
        = prepareStatusInfo h2 p2 itemID errorSource) ∧
    ((statusItem h params itemID).get "status_text" = some (.str "") →
      (prepareStatusInfo h params itemID errorSource).StatusText =
        if (prepareStatusInfo h params itemID errorSource).Status = "ok" then "Working"
        else "Error") ∧
    ((statusItem h params itemID).get "status_text_color" = some (.str "") →
      (prepareStatusInfo h params itemID errorSource).StatusTextColor =
        if (prepareStatusInfo h params itemID errorSource).Status = "ok" then "#9bca3e"
        else if (prepareStatusInfo h params itemID errorSource).Status = "error" then "#bd2426"
        else "") ∧
    ((statusItem h params itemID).get "status" = some (.str "") →
      (prepareStatusInfo h params itemID errorSource).Status = "") ∧
    ((statusItem h params itemID).get "location" = some (.str "") →
      (prepareStatusInfo h params itemID errorSource).Location = "") ∧
    ((statusItem h params itemID).get "name" = some (.str "") →
      (prepareStatusInfo h params itemID errorSource).Name = "") := by
  refine ⟨?_, ?_, ?_, ?_, ?_, ?_⟩
  · intro h2 p2 key hkey he hnone hrest
    have e1 : getMapValue (statusItem h params itemID) key "" = "" :=
      getMapValue_str _ _ _ _ he
    have e2 : getMapValue (statusItem h2 p2 itemID) key "" = "" := by
      simp [getMapValue, hnone]
    rcases hkey with rfl | rfl
    · exact prepareStatusInfo_congr _ _ _ _ _ _
        (getMapValue_congr _ _ _ _ (hrest _ (by decide)))
        (fun d => getMapValue_congr _ _ _ _ (hrest _ (by decide)))
        (fun d => getMapValue_congr _ _ _ _ (hrest _ (by decide)))
        (e1.trans e2.symm)
        (getMapValue_congr _ _ _ _ (hrest _ (by decide)))
    · exact prepareStatusInfo_congr _ _ _ _ _ _
        (getMapValue_congr _ _ _ _ (hrest _ (by decide)))
        (fun d => getMapValue_congr _ _ _ _ (hrest _ (by decide)))
        (fun d => getMapValue_congr _ _ _ _ (hrest _ (by decide)))
        (getMapValue_congr _ _ _ _ (hrest _ (by decide)))
        (e1.trans e2.symm)
  · intro he
    have : getMapValue (statusItem h params itemID) "status_text" "" = "" :=
      getMapValue_str _ _ _ _ he
    simp [prepareStatusInfo, this]
  · intro he
    have : getMapValue (statusItem h params itemID) "status_text_color" "" = "" :=
      getMapValue_str _ _ _ _ he
    simp [prepareStatusInfo, this]
  · intro he
    have : getMapValue (statusItem h params itemID) "status" "ok" = "" :=
      getMapValue_str _ _ _ _ he
    simp [prepareStatusInfo, this]
  · intro he
    have : ∀ d, getMapValue (statusItem h params itemID) "location" d = "" :=
      fun d => getMapValue_str _ _ _ _ he
    simp [prepareStatusInfo, this]
  · intro he
    have : ∀ d, getMapValue (statusItem h params itemID) "name" d = "" :=
      fun d => getMapValue_str _ _ _ _ he
    simp [prepareStatusInfo, this]

theorem C20_empty_strings_witness :
    prepareStatusInfo
        [[("host_status", .map (some 1))],
         [("status", .str "error"), ("status_text", .str ""), ("name", .str "")]]
        (some 0) "host" "" =
      prepareStatusInfo
        [[("host_status", .map (some 1))], [("status", .str "error"), ("name", .str "")]]
        (some 0) "host" "" ∧
    (prepareStatusInfo
        [[("host_status", .map (some 1))],
         [("status", .str "error"), ("status_text", .str ""), ("name", .str "")]]
        (some 0) "host" "").Name = "" :=
  ⟨(C20_empty_strings
      [[("host_status", .map (some 1))],
       [("status", .str "error"), ("status_text", .str ""), ("name", .str "")]]
      (some 0) "host" "").1
      [[("host_status", .map (some 1))], [("status", .str "error"), ("name", .str "")]]
      (some 0) "status_text" (Or.inl rfl) (by decide) (by decide)
      (by
        intro k hk
        simp [statusItem, index, Heap.read, GoMap.get, Value.asMap, hk]),
   (C20_empty_strings _ (some 0) "host" "").2.2.2.2.2 (by decide)⟩

/-! ## The ray identifier -/

theorem hexDigit_mem (n : Nat) (hn : n < 16) : hexDigit n ∈ "0123456789abcdef".toList := by
  interval_cases n <;> decide

theorem hexDigit_inj (m n : Nat) (hm : m < 16) (hn : n < 16) (e : hexDigit m = hexDigit n) :
    m = n := by
  interval_cases m <;> interval_cases n <;> first | rfl | (exact absurd e (by decide))

theorem hexDigit_eq (n : Nat) (hn : n < 16) :
    hexDigit n = Char.ofNat (if n < 10 then 48 + n else 87 + n) := by
  interval_cases n <;> decide

theorem generateRayID_toList (r : Nat → Nat) :
    (generateRayID (some r)).toList =
      [hexDigit (r 0 % 256 / 16), hexDigit (r 0 % 256 % 16),
       hexDigit (r 1 % 256 / 16), hexDigit (r 1 % 256 % 16),
       hexDigit (r 2 % 256 / 16), hexDigit (r 2 % 256 % 16),
       hexDigit (r 3 % 256 / 16), hexDigit (r 3 % 256 % 16),
       hexDigit (r 4 % 256 / 16), hexDigit (r 4 % 256 % 16),
       hexDigit (r 5 % 256 / 16), hexDigit (r 5 % 256 % 16),
       hexDigit (r 6 % 256 / 16), hexDigit (r 6 % 256 % 16),
       hexDigit (r 7 % 256 / 16), hexDigit (r 7 % 256 % 16)] := by
  have e : List.range 8 = [0, 1, 2, 3, 4, 5, 6, 7] := by decide
  simp [generateRayID, EncodeToString, e]

theorem generateRayID_hex (rand : Option (Nat → Nat)) :
    (generateRayID rand).length = 16 ∧
    ∀ c ∈ (generateRayID rand).toList, c ∈ "0123456789abcdef".toList := by
  cases rand with
  | none => exact ⟨by decide, by decide⟩
  | some r =>
    have hl := generateRayID_toList r
    constructor
    · rw [String.length, ← String.toList, hl]; rfl
    · intro c hc
      rw [hl] at hc
      simp only [List.mem_cons, List.mem_singleton, List.mem_nil_iff, or_false] at hc
      have d : ∀ x : Nat, x % 256 / 16 < 16 := fun x => by omega
      have m : ∀ x : Nat, x % 256 % 16 < 16 := fun x => by omega
      rcases hc with rfl | rfl | rfl | rfl | rfl | rfl | rfl | rfl | rfl | rfl | rfl | rfl
        | rfl | rfl | rfl | rfl <;>
        first
        | exact hexDigit_mem _ (d _)
        | exact hexDigit_mem _ (m _)

theorem byte_eq_of_digits (x y : Nat) (hx : x < 256) (hy : y < 256)
    (e1 : hexDigit (x / 16) = hexDigit (y / 16)) (e2 : hexDigit (x % 16) = hexDigit (y % 16)) :
    x = y := by
  have a := hexDigit_inj _ _ (by omega) (by omega) e1
  have b := hexDigit_inj _ _ (by omega) (by omega) e2
  omega

/-- C18: with the random source given as eight bytes or a failure,
`generateRayID` returns the lowercase hexadecimal encoding of the bytes: 16
characters, each of `0-9a-f`, two for each byte in order, high digit first, so
that different byte sequences give different identifiers; it returns the
placeholder of sixteen zeros when the source fails.  (It is a total function: it
has no failure of its own.) -/
theorem C18_generateRayID :
    generateRayID none = "0000000000000000" ∧
    (∀ rand, (generateRayID rand).length = 16 ∧
      ∀ c ∈ (generateRayID rand).toList, c ∈ "0123456789abcdef".toList) ∧
    (∀ r : Nat → Nat, (generateRayID (some r)).toList =
      [hexDigit (r 0 % 256 / 16), hexDigit (r 0 % 256 % 16),
       hexDigit (r 1 % 256 / 16), hexDigit (r 1 % 256 % 16),
       hexDigit (r 2 % 256 / 16), hexDigit (r 2 % 256 % 16),
       hexDigit (r 3 % 256 / 16), hexDigit (r 3 % 256 % 16),
       hexDigit (r 4 % 256 / 16), hexDigit (r 4 % 256 % 16),
       hexDigit (r 5 % 256 / 16), hexDigit (r 5 % 256 % 16),
       hexDigit (r 6 % 256 / 16), hexDigit (r 6 % 256 % 16),
       hexDigit (r 7 % 256 / 16), hexDigit (r 7 % 256 % 16)]) ∧
    (∀ n, n < 16 → hexDigit n = Char.ofNat (if n < 10 then 48 + n else 87 + n)) ∧
    (∀ r r' : Nat → Nat, generateRayID (some r) = generateRayID (some r') →
      ∀ i, i < 8 → r i % 256 = r' i % 256) := by
  refine ⟨by decide, generateRayID_hex, generateRayID_toList, hexDigit_eq, ?_⟩
  intro r r' e i hi
  have el : (generateRayID (some r)).toList = (generateRayID (some r')).toList := by rw [e]
  rw [generateRayID_toList, generateRayID_toList] at el
  simp only [List.cons.injEq, and_true] at el
  obtain ⟨a0, b0, a1, b1, a2, b2, a3, b3, a4, b4, a5, b5, a6, b6, a7, b7⟩ := el
  have lt : ∀ x : Nat, x % 256 < 256 := fun x => Nat.mod_lt _ (by decide)
  interval_cases i
  · exact byte_eq_of_digits _ _ (lt _) (lt _) a0 b0
  · exact byte_eq_of_digits _ _ (lt _) (lt _) a1 b1
  · exact byte_eq_of_digits _ _ (lt _) (lt _) a2 b2
  · exact byte_eq_of_digits _ _ (lt _) (lt _) a3 b3
  · exact byte_eq_of_digits _ _ (lt _) (lt _) a4 b4
  · exact byte_eq_of_digits _ _ (lt _) (lt _) a5 b5
  · exact byte_eq_of_digits _ _ (lt _) (lt _) a6 b6
  · exact byte_eq_of_digits _ _ (lt _) (lt _) a7 b7

theorem C18_generateRayID_witness :
    (generateRayID (some fun i => 16 * i + 250)).toList = "fa0a1a2a3a4a5a6a".toList ∧
    generateRayID (some fun i => 16 * i + 250) = "fa0a1a2a3a4a5a6a" :=
  ⟨(C18_generateRayID.2.2.1 _).trans (by decide), by decide⟩

/-! ## `fillParams` -/

theorem fillParams_some {D : Type} (env : Env D) (h : Heap) (a : Nat) :
    fillParams env h (some a)
      = some (h.ensureAll a [("time", .str env.now), ("ray_id", .str (generateRayID env.rand))]) := by
  simp [fillParams, setIfAbsent_some, Heap.ensureAll]

/-- C12: for every bag `fillParams` is given (a map object: line 186 passes the
copy `Render` has just made, the test a map literal), `fillParams` returns;
afterwards `time` and `ray_id` are present; a supplied `time` or `ray_id` keeps
the supplied value, whatever the clock and the random source give, and a
missing one takes the formatted clock or the generated identifier; no other key
of the bag and no other map object is changed. -/
theorem C12_fillParams {D : Type} (env : Env D) (h : Heap) (a : Nat) (ha : a < h.length) :
    ∃ h', fillParams env h (some a) = some h' ∧
      h'.length = h.length ∧
      (index h' (some a) "time").isSome ∧ (index h' (some a) "ray_id").isSome ∧
      (∀ v, index h (some a) "time" = some v → index h' (some a) "time" = some v) ∧
      (∀ v, index h (some a) "ray_id" = some v → index h' (some a) "ray_id" = some v) ∧
      (index h (some a) "time" = none → index h' (some a) "time" = some (.str env.now)) ∧
      (index h (some a) "ray_id" = none →
        index h' (some a) "ray_id" = some (.str (generateRayID env.rand))) ∧
      (∀ k, k ≠ "time" → k ≠ "ray_id" → index h' (some a) k = index h (some a) k) ∧
      (∀ b, b ≠ a → h'.read b = h.read b) := by
  refine ⟨_, fillParams_some env h a, Heap.length_ensureAll _ _ _, ?_, ?_, ?_, ?_, ?_, ?_, ?_, ?_⟩
  · rw [index_ensureAll _ _ _ _ ha]
    cases index h (some a) "time" <;> simp [GoMap.get]
  · rw [index_ensureAll _ _ _ _ ha]
    cases index h (some a) "ray_id" <;> simp [GoMap.get]
  · intro v hv
    rw [index_ensureAll _ _ _ _ ha, hv]
  · intro v hv
    rw [index_ensureAll _ _ _ _ ha, hv]
  · intro hv
    rw [index_ensureAll _ _ _ _ ha, hv]
    simp [GoMap.get]
  · intro hv
    rw [index_ensureAll _ _ _ _ ha, hv]
    simp [GoMap.get]
  · intro k h1 h2
    rw [index_ensureAll _ _ _ _ ha]
    cases index h (some a) k <;> simp [GoMap.get, h1, h2]
  · intro b hb
    exact Heap.read_ensureAll_ne _ _ _ _ hb

theorem C12_fillParams_witness :
    ∃ h', fillParams sampleEnv [[("time", .str "yesterday"), ("title", .str "T")]] (some 0)
        = some h' ∧
      index h' (some 0) "time" = some (.str "yesterday") ∧
      index h' (some 0) "ray_id" = some (.str "0000000000000000") ∧
      index h' (some 0) "title" = some (.str "T") := by
  obtain ⟨h', e, _, _, _, t, _, _, r, o, _⟩ := C12_fillParams sampleEnv
    [[("time", .str "yesterday"), ("title", .str "T")]] 0 (by decide)
  exact ⟨h', e, t _ (by decide), r (by decide),
    (o "title" (by decide) (by decide)).trans (by decide)⟩

/-! ## The ray identifier in the bag -/

/-- C11, as stated, fails: a `ray_id` the caller supplies is handed to the template
as it is.  For the bag `{ray_id: "abc"}` the normalisation returns and the bag
for the template binds `ray_id` to "abc", a string of 3 characters. -/
theorem C11_refuted_by_supplied_ray_id :
    ∃ h', Render.normalize sampleEnv [[("ray_id", .str "abc")]] (some 0) = some (h', 1) ∧
      index h' (some 1) "ray_id" = some (.str "abc") ∧ "abc".length ≠ 16 := by
  obtain ⟨h', hn, _⟩ := normalize_spec sampleEnv [[("ray_id", .str "abc")]] (some 0)
    (by decide) (by decide)
  obtain ⟨_, _, _, h4, _⟩ := normalize_frame sampleEnv _ h' (some 0) _ hn
  exact ⟨h', hn, h4 "ray_id" (.str "abc") (by decide) (by decide), by decide⟩

/-- C11, amended: for every bag that supplies no `ray_id`, the `ray_id` of the
copy is the generated identifier, a string of exactly 16 characters of `0-9a-f`;
a supplied `ray_id` is kept as it is.  This holds of the copy after lines
180-211, which always exists, and of the bag of every completed normalisation;
the normalisation completes unless a group is the nil map. -/
theorem C11_ray_id {D : Type} (env : Env D) (h : Heap) (params : Option Nat) :
    ((generateRayID env.rand).length = 16 ∧
      ∀ c ∈ (generateRayID env.rand).toList, c ∈ "0123456789abcdef".toList) ∧
    (∃ hs, Render.scalars env h params = some hs ∧
      (index h params "ray_id" = none →
        index hs (some h.length) "ray_id" = some (.str (generateRayID env.rand))) ∧
      (∀ v, index h params "ray_id" = some v → index hs (some h.length) "ray_id" = some v)) ∧
    (∀ h' c, Render.normalize env h params = some (h', c) →
      (index h params "ray_id" = none →
        index h' (some c) "ray_id" = some (.str (generateRayID env.rand))) ∧
      (∀ v, index h params "ray_id" = some v → index h' (some c) "ray_id" = some v)) ∧
    (groupsNonNil h params → ∃ h', Render.normalize env h params = some (h', h.length)) := by
  have v1 : index h params "ray_id" = none →
      scalarsView env h params h.length "ray_id" = some (.str (generateRayID env.rand)) := by
    intro hno
    simp [scalarsView, hno, scalarDefaults, GoMap.get]
  have v2 : ∀ v, index h params "ray_id" = some v →
      scalarsView env h params h.length "ray_id" = some v := by
    intro v hv
    simp [scalarsView, hv]
  refine ⟨generateRayID_hex env.rand, ⟨scalarsHeap env h params, scalars_eq env h params, ?_, ?_⟩,
    ?_, ?_⟩
  · intro hno; rw [index_scalarsHeap]; exact v1 hno
  · intro v hv; rw [index_scalarsHeap]; exact v2 v hv
  · intro h' c hs
    obtain ⟨rfl, _, _, _, h5⟩ := normalize_frame env h h' params c hs
    rw [h5 "ray_id" (by decide) (by decide)]
    exact ⟨v1, v2⟩
  · intro hn
    cases hx : Render.normalize env h params with
    | none => exact absurd hn ((normalize_eq_none env h params).mp hx)
    | some r =>
      obtain ⟨h', c⟩ := r
      obtain ⟨rfl, _⟩ := normalize_frame env h h' params c hx
      exact ⟨h', rfl⟩

theorem C11_ray_id_witness :
    ∃ h', Render.normalize sampleEnv [] none = some (h', 0) ∧
      index h' (some 0) "ray_id" = some (.str "0000000000000000") := by
  obtain ⟨h', hn⟩ := (C11_ray_id sampleEnv [] none).2.2.2 (by decide)
  exact ⟨h', hn, ((C11_ray_id sampleEnv [] none).2.2.1 h' 0 hn).1 (by decide)⟩

/-! ## The top level of the caller's bag -/

/-- C19, evaluated at the failing input: a bag that stores its own map as its
`more_information` group (`p["more_information"] = map[string]interface{}(p)`,
object 0 bound inside object 0).  The block of `more_information` takes the
caller's bag itself as `moreInfo` and writes the defaults into it: `Render`
returns, and the caller's bag has the top-level keys `hidden`, `link`, `text` and
`for` that it did not have. -/
theorem C19_bag_stored_in_itself (env : Env TemplateData) (opts : Option RenderOptions) :
    ∃ h' out err,
      Render env [[("more_information", .map (some 0))]] (some 0) opts = some (h', out, err) ∧
      index [[("more_information", .map (some 0))]] (some 0) "hidden" = none ∧
      index h' (some 0) "hidden" = some (.bool false) ∧
      index h' (some 0) "link" = some (.str "https://www.cloudflare.com/") ∧
      index h' (some 0) "text" = some (.str "cloudflare.com") ∧
      index h' (some 0) "for" = some (.str "more information") := by
  obtain ⟨h', hn, _, hv⟩ := normalize_spec env [[("more_information", .map (some 0))]] (some 0)
    (by decide) (by decide)
  obtain ⟨d, hd, _⟩ := data_of_normalize env _ h' (some 0) opts _ hn
  obtain ⟨out, err, hr⟩ := render_of_data env _ h' (some 0) opts d hd
  refine ⟨h', out, err, hr, by decide, ?_, ?_, ?_, ?_⟩ <;>
  · rw [hv]; simp [normalView, layer, groupAddr, scalarsView, index, Heap.read, GoMap.get,
      moreInformationDefaults, perfSecByDefaults, creatorInfoDefaults]

theorem groupAddr_ne (h : Heap) (p : Option Nat) (gk : String) (f a : Nat) (hf : a ≠ f)
    (hb : index h p gk ≠ some (.map (some a))) : a ≠ groupAddr h p gk f := by
  unfold groupAddr
  cases hx : index h p gk with
  | none => exact hf
  | some v =>
    cases v with
    | map r =>
      cases r with
      | none => exact hf
      | some x =>
        intro e
        apply hb
        rw [hx, e]
    | _ => exact hf

/-- When the caller's bag is not stored inside itself under a group key, a
completed call leaves its top level as it was: no key is added, removed or
rebound. -/
theorem top_level_unchanged (env : Env TemplateData) (h h' : Heap) (a : Nat)
    (opts : Option RenderOptions) (out : String) (err : Option GoError)
    (ha : a < h.length) (hl : groupsLive h (some a))
    (hself : ∀ gk ∈ groupKeys, index h (some a) gk ≠ some (.map (some a)))
    (hr : Render env h (some a) opts = some (h', out, err)) :
    ∀ k, index h' (some a) k = index h (some a) k := by
  have hnn : Render.normalize env h (some a) ≠ none := by
    intro e
    rw [(render_eq_none env h (some a) opts).mpr e] at hr
    cases hr
  have hn : groupsNonNil h (some a) := by
    by_contra hc
    exact hnn ((normalize_eq_none env h (some a)).mpr hc)
  obtain ⟨h1, e1, _, hv⟩ := normalize_spec env h (some a) hl hn
  obtain ⟨d, hd, _⟩ := data_of_normalize env h h1 (some a) opts _ e1
  obtain ⟨out1, err1, hr1⟩ := render_of_data env h h1 (some a) opts d hd
  rw [hr] at hr1
  injection hr1 with hr1
  injection hr1 with hh _
  subst hh
  intro k
  have x1 := groupAddr_ne h (some a) "more_information" (h.length + 1) a (by omega)
    (hself _ (by simp [groupKeys]))
  have x2 := groupAddr_ne h (some a) "perf_sec_by" (h.length + 2) a (by omega)
    (hself _ (by simp [groupKeys]))
  have x3 := groupAddr_ne h (some a) "creator_info" (h.length + 3) a (by omega)
    (hself _ (by simp [groupKeys]))
  have x0 : a ≠ h.length := by omega
  rw [hv]
  simp [normalView, layer, x0, x1, x2, x3, scalarsView]

/-! ## Escaping of `what_happened` -/

theorem escapeChar_no_lt (c : Char) : '<' ∉ escapeChar c := by
  unfold escapeChar
  split_ifs with h1 h2 h3 h4 h5 h6 h7
  · decide
  · decide
  · decide
  · decide
  · decide
  · decide
  · decide
  · intro hm
    simp only [List.mem_singleton] at hm
    exact h6 hm.symm

theorem htmlEscape_toList (s : String) :
    (htmlEscape s).toList = s.toList.flatMap escapeChar := rfl

theorem htmlEscape_no_lt (s : String) : '<' ∉ (htmlEscape s).toList := by
  rw [htmlEscape_toList]
  intro hm
  rw [List.mem_flatMap] at hm
  obtain ⟨c, _, hc⟩ := hm
  exact escapeChar_no_lt c hc

theorem htmlEscape_script (s : String) (hs : List.IsInfix "<script>".toList s.toList) :
    List.IsInfix "&lt;script&gt;".toList (htmlEscape s).toList := by
  obtain ⟨pre, post, e⟩ := hs
  refine ⟨pre.flatMap escapeChar, post.flatMap escapeChar, ?_⟩
  rw [htmlEscape_toList, ← e, List.flatMap_append, List.flatMap_append]
  have : "<script>".toList.flatMap escapeChar = "&lt;script&gt;".toList := by decide
  rw [this]

/-- C16: with `AllowHTML` false and a string `what_happened` supplied, `Render`
does no escaping of its own: it hands the caller's string, unaltered, and
`allow_html = false` to the template.  The section for `what_happened` (modelled
from the spec) is then the escaped text: when the value contains `<script>`, the
section contains `&lt;script&gt;`, has no `<` at all and so no live `<script>`
tag.  The steps before the template complete unless a group is the nil map. -/
theorem C16_escaped_when_html_not_allowed {D : Type} (env : Env D) (h : Heap)
    (params : Option Nat) (useCDN : Bool) (s : String)
    (hw : index h params "what_happened" = some (.str s)) :
    (∀ h' d, Render.data env h params (some { AllowHTML := false, UseCDN := useCDN })
        = some (h', d) →
      d.allow_html = false ∧
      index h' (some d.params) "what_happened" = some (.str s) ∧
      whatHappenedSection d s = htmlEscape s ∧
      (List.IsInfix "<script>".toList s.toList →
        List.IsInfix "&lt;script&gt;".toList (whatHappenedSection d s).toList ∧
        '<' ∉ (whatHappenedSection d s).toList ∧
        ¬ List.IsInfix "<script>".toList (whatHappenedSection d s).toList)) ∧
    (groupsNonNil h params →
      ∃ h' d, Render.data env h params (some { AllowHTML := false, UseCDN := useCDN })
        = some (h', d)) := by
  constructor
  · intro h' d hd
    rw [data_eq_some] at hd
    obtain ⟨hn, _, _, h4, _⟩ := hd
    simp only [Option.getD] at h4
    obtain ⟨_, _, _, f4, _⟩ := normalize_frame env h h' params d.params hn
    have hsec : whatHappenedSection d s = htmlEscape s := by
      simp [whatHappenedSection, h4]
    refine ⟨h4, f4 "what_happened" (.str s) hw (by decide), hsec, ?_⟩
    intro hs
    rw [hsec]
    refine ⟨htmlEscape_script s hs, htmlEscape_no_lt s, ?_⟩
    rintro ⟨pre, post, e⟩
    apply htmlEscape_no_lt s
    rw [← e]
    simp
  · intro hn
    cases hx : Render.normalize env h params with
    | none => exact absurd hn ((normalize_eq_none env h params).mp hx)
    | some r =>
      obtain ⟨d, hd, _⟩ := data_of_normalize env h r.1 params
        (some { AllowHTML := false, UseCDN := useCDN }) r.2 hx
      exact ⟨r.1, d, hd⟩

theorem C16_escaped_when_html_not_allowed_witness :
    ∃ h' d, Render.data sampleEnv [[("what_happened", .str "<script>alert('xss')</script>")]]
        (some 0) (some { AllowHTML := false, UseCDN := true }) = some (h', d) ∧
      d.allow_html = false ∧
      index h' (some d.params) "what_happened"
        = some (.str "<script>alert('xss')</script>") ∧
      List.IsInfix "&lt;script&gt;".toList
        (whatHappenedSection d "<script>alert('xss')</script>").toList ∧
      htmlEscape "<script>alert('xss')</script>"
        = "&lt;script&gt;alert(&#39;xss&#39;)&lt;/script&gt;" := by
  obtain ⟨h', d, hd⟩ := (C16_escaped_when_html_not_allowed sampleEnv
    [[("what_happened", .str "<script>alert('xss')</script>")]] (some 0) true
    "<script>alert('xss')</script>" (by decide)).2 (by decide)
  obtain ⟨t1, t2, _, t4⟩ := (C16_escaped_when_html_not_allowed sampleEnv
    [[("what_happened", .str "<script>alert('xss')</script>")]] (some 0) true
    "<script>alert('xss')</script>" (by decide)).1 h' d hd
  exact ⟨h', d, hd, t1, t2, (t4 ⟨[], "alert('xss')</script>".toList, by decide⟩).1, by decide⟩

end ErrorPage
